import Mathlib

/-!
# Verification of the HackRx automated-submission scheduler

Shallow embedding of the repository's two modules:

* `mann.py` — `ScheduledTask` / `TaskManager` (a JSON-persisted task store),
  the time parser `parse_time_input`, the dispatcher `check_and_run_tasks` /
  `run_hackrx_task`, and the result-monitoring loop
  `monitor_results_with_cooldown_detection`.
* `test.py` — `HackRxSeleniumScraper.extract_submission_details`, the pure
  text classifier that locates a marker in a page and extracts metrics with
  ordered regular-expression patterns.

Python strings are modelled as `List Char` (with `String` wrappers at the
interfaces), Python `dict` as an insertion-ordered association list with
unique keys, datetimes as a record of calendar fields plus a fixed UTC
offset in minutes (every datetime the program builds is localized to IST,
offset +330 minutes, so comparisons are wall-clock lexicographic), and
the small fragment of regular-expression syntax used by the classifier as
an executable backtracking matcher over a pattern AST.
-/

namespace HackRx

/-! ## Basic character and list utilities (Python string semantics) -/

/-- ASCII decimal digit, the `\d` class as used on the ASCII inputs of the
program (`re` would also accept other Unicode digits; the program's data is
ASCII). -/
def isDigitCh (c : Char) : Bool :=
  '0' ≤ c && c ≤ '9'

/-- Python `\s` / `str.strip` whitespace, restricted to the ASCII range. -/
def isSpaceCh (c : Char) : Bool :=
  c = ' ' || c = '\t' || c = '\n' || c = '\r' || c = '\x0b' || c = '\x0c'

/-- ASCII lower-casing, the fragment of `str.lower` exercised by the data. -/
def lowerCh (c : Char) : Char :=
  if 'A' ≤ c && c ≤ 'Z' then Char.ofNat (c.toNat + 32) else c

/-- `str.lower` on a character list. -/
def lowerList (l : List Char) : List Char :=
  l.map lowerCh

/-- `str.strip()`: drop whitespace from both ends. -/
def stripList (l : List Char) : List Char :=
  (l.dropWhile isSpaceCh).reverse.dropWhile isSpaceCh |>.reverse

/-- Whether `pre` is a prefix of `l` (`str.startswith`). -/
def startsWithList (pre l : List Char) : Bool :=
  decide (pre <+: l)

/-- First index at which `needle` occurs in `haystack` (`str.find`),
`none` when absent (Python returns `-1`). -/
def findSub (needle haystack : List Char) : Option Nat :=
  match haystack with
  | [] => if needle = [] then some 0 else none
  | _ :: rest =>
    if startsWithList needle haystack then some 0
    else (findSub needle rest).map (· + 1)

/-- `str.replace(old, "")`: remove every (left-to-right, non-overlapping)
occurrence of `old`.  `fuel` bounds the scan by the input length. -/
def removeAllAux (old : List Char) (l : List Char) (fuel : Nat) : List Char :=
  match fuel with
  | 0 => l
  | fuel + 1 =>
    match l with
    | [] => []
    | c :: rest =>
      if old ≠ [] && startsWithList old l then
        removeAllAux old (l.drop old.length) fuel
      else
        c :: removeAllAux old rest fuel

/-- `text.replace(old, '')` as used by `parse_time_input` (mann.py:437). -/
def removeAll (old l : List Char) : List Char :=
  removeAllAux old l l.length

/-- Case-insensitive containment: `needle.lower() in haystack.lower()`. -/
def containsCI (needle haystack : List Char) : Bool :=
  (findSub (lowerList needle) (lowerList haystack)).isSome

/-! ## Python `dict` as an insertion-ordered association list -/

/-- `d[k]` lookup (first matching key; keys are unique by construction). -/
def dictLookup {α : Type} (k : String) : List (String × α) → Option α
  | [] => none
  | (k', v) :: rest => if k' = k then some v else dictLookup k rest

/-- `d[k] = v`: replace in place when the key exists (Python dicts keep the
original position), append otherwise. -/
def dictInsert {α : Type} (k : String) (v : α) : List (String × α) → List (String × α)
  | [] => [(k, v)]
  | (k', v') :: rest =>
    if k' = k then (k, v) :: rest else (k', v') :: dictInsert k v rest

/-- Mutate the entry at key `k` with `f`, when present (no-op otherwise). -/
def dictModify {α : Type} (k : String) (f : α → α) : List (String × α) → List (String × α)
  | [] => []
  | (k', v) :: rest =>
    if k' = k then (k', f v) :: rest else (k', v) :: dictModify k f rest

theorem dictLookup_insert_self {α : Type} (k : String) (v : α) (d : List (String × α)) :
    dictLookup k (dictInsert k v d) = some v := by
  induction d with
  | nil => simp [dictInsert, dictLookup]
  | cons hd tl ih =>
    obtain ⟨k', v'⟩ := hd
    by_cases h : k' = k <;> simp [dictInsert, dictLookup, h, ih]

theorem dictLookup_insert_other {α : Type} (k k' : String) (v : α) (d : List (String × α))
    (h : k' ≠ k) : dictLookup k' (dictInsert k v d) = dictLookup k' d := by
  induction d with
  | nil => simp [dictInsert, dictLookup, Ne.symm h]
  | cons hd tl ih =>
    obtain ⟨k₀, v₀⟩ := hd
    by_cases h₀ : k₀ = k
    · subst h₀
      simp [dictInsert, dictLookup, if_neg (Ne.symm h)]
    · simp only [dictInsert, if_neg h₀, dictLookup]
      by_cases h₁ : k₀ = k' <;> simp [h₁, ih]

theorem dictInsert_length_of_mem {α : Type} (k : String) (v : α) (d : List (String × α))
    (h : (dictLookup k d).isSome) :
    (dictInsert k v d).length = d.length := by
  induction d with
  | nil => simp [dictLookup] at h
  | cons hd tl ih =>
    obtain ⟨k', v'⟩ := hd
    by_cases hk : k' = k
    · simp [dictInsert, hk]
    · simp only [dictLookup, if_neg hk] at h
      simp [dictInsert, hk, ih h]

theorem dictLookup_modify_self {α : Type} (k : String) (f : α → α) (d : List (String × α)) :
    dictLookup k (dictModify k f d) = (dictLookup k d).map f := by
  induction d with
  | nil => simp [dictModify, dictLookup]
  | cons hd tl ih =>
    obtain ⟨k', v⟩ := hd
    by_cases h : k' = k <;> simp [dictModify, dictLookup, h, ih]

theorem dictLookup_modify_other {α : Type} (k k' : String) (f : α → α)
    (d : List (String × α)) (h : k' ≠ k) :
    dictLookup k' (dictModify k f d) = dictLookup k' d := by
  induction d with
  | nil => simp [dictModify, dictLookup]
  | cons hd tl ih =>
    obtain ⟨k₀, v⟩ := hd
    by_cases h₀ : k₀ = k
    · subst h₀
      simp [dictModify, dictLookup, if_neg (Ne.symm h)]
    · simp only [dictModify, if_neg h₀, dictLookup]
      by_cases h₁ : k₀ = k' <;> simp [h₁, ih]

theorem dictModify_of_absent {α : Type} (k : String) (f : α → α) (d : List (String × α))
    (h : dictLookup k d = none) : dictModify k f d = d := by
  induction d with
  | nil => rfl
  | cons hd tl ih =>
    obtain ⟨k', v⟩ := hd
    by_cases hk : k' = k
    · simp [dictLookup, hk] at h
    · simp only [dictLookup, if_neg hk] at h
      simp [dictModify, hk, ih h]

/-! ## JSON values (shape of the `results` payload) -/

/-- A JSON value; results dictionaries built by `run_hackrx_task` and the
monitoring loop are of this shape, so `json.dump`/`json.load` round-trips
them. -/
inductive JsonVal where
  | null : JsonVal
  | bool (b : Bool) : JsonVal
  | num (n : Int) : JsonVal
  | str (s : String) : JsonVal
  | arr (xs : List JsonVal) : JsonVal
  | obj (fields : List (String × JsonVal)) : JsonVal

/-- Python truthiness of the `results` argument of `update_task_status`
(`Optional[Dict]`): `None` and the empty dict are falsy. -/
def truthyResults (r : Option (List (String × JsonVal))) : Bool :=
  match r with
  | none => false
  | some l => !l.isEmpty

/-! ## Datetimes (IST-localized `datetime` values) -/

/-- A Python timezone-aware `datetime`: calendar fields plus the UTC offset
in minutes.  Everything built by `mann.py` is localized to IST
(`pytz.timezone('Asia/Kolkata')`, offset +330 minutes and no DST), so two
values the program ever compares share the same offset. -/
structure PyDateTime where
  year : Nat
  month : Nat
  day : Nat
  hour : Nat
  minute : Nat
  second : Nat
  microsecond : Nat
  offMinutes : Int
deriving DecidableEq, Repr

/-- The IST offset, +05:30, in minutes. -/
def istOff : Int := 330

/-- Gregorian leap year (`calendar` rule used by `datetime`). -/
def isLeap (y : Nat) : Bool :=
  (y % 4 = 0 && y % 100 ≠ 0) || y % 400 = 0

/-- Days in a month of the proleptic Gregorian calendar. -/
def daysInMonth (y m : Nat) : Nat :=
  if m = 2 then (if isLeap y then 29 else 28)
  else if m = 4 || m = 6 || m = 9 || m = 11 then 30
  else 31

/-- Calendar validity of the fields of an aware `datetime` (what the
`datetime` constructor enforces, plus a sub-day offset as any real zoneinfo
offset is). -/
def ValidDT (dt : PyDateTime) : Prop :=
  1 ≤ dt.year ∧ dt.year ≤ 9999 ∧
  1 ≤ dt.month ∧ dt.month ≤ 12 ∧
  1 ≤ dt.day ∧ dt.day ≤ daysInMonth dt.year dt.month ∧
  dt.hour ≤ 23 ∧ dt.minute ≤ 59 ∧ dt.second ≤ 59 ∧ dt.microsecond ≤ 999999 ∧
  dt.offMinutes.natAbs ≤ 1439

instance (dt : PyDateTime) : Decidable (ValidDT dt) := by
  unfold ValidDT; infer_instance

/-- The date triple `(year, month, day)` of a datetime (`dt.date()`). -/
def dateOf (dt : PyDateTime) : Nat × Nat × Nat :=
  (dt.year, dt.month, dt.day)

/-- The calendar day after `(y, m, d)`; this is the date of
`dt + timedelta(days=1)` (wall-clock day arithmetic; IST has no DST). -/
def nextDate : Nat × Nat × Nat → Nat × Nat × Nat
  | (y, m, d) =>
    if d < daysInMonth y m then (y, m, d + 1)
    else if m < 12 then (y, m + 1, 1)
    else (y + 1, 1, 1)

/-- Mixed-radix key of a date triple; strictly monotone in the
lexicographic order of valid dates (month ≤ 12 < 13, day ≤ 31 < 32). -/
def dateKey (d : Nat × Nat × Nat) : Nat :=
  (d.1 * 13 + d.2.1) * 32 + d.2.2

/-- Microseconds since midnight; below 86400000000 for a valid time. -/
def timeKey (dt : PyDateTime) : Nat :=
  ((dt.hour * 60 + dt.minute) * 60 + dt.second) * 1000000 + dt.microsecond

/-- Wall-clock comparison key.  For two aware datetimes with the same
offset (always IST here) Python's instant comparison coincides with the
lexicographic comparison of the calendar fields, hence with this key. -/
def dtKey (dt : PyDateTime) : Nat :=
  dateKey (dateOf dt) * 86400000000 + timeKey dt

/-- `a <= b` for same-offset aware datetimes. -/
def dtLe (a b : PyDateTime) : Bool :=
  dtKey a ≤ dtKey b

/-- `IST.localize(datetime.combine(target_date, target_time))` where the
time came from `datetime.min.time().replace(hour=h, minute=mi)` (seconds
and microseconds zero). -/
def combineIST (date : Nat × Nat × Nat) (h mi : Nat) : PyDateTime :=
  { year := date.1, month := date.2.1, day := date.2.2,
    hour := h, minute := mi, second := 0, microsecond := 0, offMinutes := istOff }

/-! ## The task record and the store operations (`TaskManager`, mann.py) -/

/-- `ScheduledTask` (mann.py:43-53), field for field.  `status` is a plain
string in the source ('pending', 'running', 'completed', 'failed',
'cancelled'); `results` is an optional JSON dictionary. -/
structure ScheduledTask where
  user_id : Int
  task_id : String
  webhook_url : String
  notes : String
  scheduled_time : PyDateTime
  status : String
  created_at : PyDateTime
  results : Option (List (String × JsonVal))

/-- The in-memory store `TaskManager.tasks`: a dict keyed by task id. -/
abbrev TaskDict : Type := List (String × ScheduledTask)

/-- `add_task` (mann.py:96-100): plain dict assignment
`self.tasks[task.task_id] = task`, no duplicate check. -/
def add_task (tasks : TaskDict) (task : ScheduledTask) : TaskDict :=
  dictInsert task.task_id task tasks

/-- `get_pending_tasks` (mann.py:106-108). -/
def get_pending_tasks (tasks : TaskDict) : List ScheduledTask :=
  (tasks.map Prod.snd).filter (fun t => t.status = "pending")

/-- `update_task_status` (mann.py:110-116): when the id is present, set the
status, and overwrite `results` only when the argument is truthy
(`if results:` — `None` and `{}` are both falsy). -/
def update_task_status (tasks : TaskDict) (task_id status : String)
    (results : Option (List (String × JsonVal))) : TaskDict :=
  if (dictLookup task_id tasks).isSome then
    dictModify task_id
      (fun t =>
        let t := { t with status := status }
        if truthyResults results then { t with results := results } else t)
      tasks
  else
    tasks

/-- `cancel_task` (mann.py:118-124): succeeds only when the id is present
with status 'pending'; returns the success flag and the updated store. -/
def cancel_task (tasks : TaskDict) (task_id : String) : Bool × TaskDict :=
  match dictLookup task_id tasks with
  | some t =>
    if t.status = "pending" then
      (true, dictModify task_id (fun t => { t with status := "cancelled" }) tasks)
    else
      (false, tasks)
  | none => (false, tasks)

/-- Task id generated by intake (`handle_notes_input`, mann.py:282):
`f"task_{user_id}_{int(time.time())}"`. -/
def makeTaskId (user_id : Int) (unixSeconds : Int) : String :=
  "task_" ++ toString user_id ++ "_" ++ toString unixSeconds

/-! ## Claims C4, C5, C10 — store operations -/

/-- A fixed instant used by concrete witnesses: 2024-01-15 14:00 IST. -/
def sampleDT : PyDateTime :=
  { year := 2024, month := 1, day := 15, hour := 14, minute := 0,
    second := 0, microsecond := 0, offMinutes := istOff }

/-- A concrete task record for witnesses. -/
def sampleTask (id status : String) : ScheduledTask :=
  { user_id := 7, task_id := id, webhook_url := "https://api.example.test/run",
    notes := "run 1", scheduled_time := sampleDT, status := status,
    created_at := sampleDT, results := none }

/-- A concrete two-task store for witnesses. -/
def demoStore : TaskDict :=
  [("a", sampleTask "a" "pending"), ("b", sampleTask "b" "completed")]

/-- C4: `cancel_task` returns true iff the id is present with status
'pending' at call time; when it returns true the task's status becomes
'cancelled'; it returns false (leaving the store unchanged) for a running,
completed, failed or cancelled task and for an unknown id. -/
theorem claim_C4_cancel_task (tasks : TaskDict) (id : String) :
    ((cancel_task tasks id).1 = true ↔
      ∃ t, dictLookup id tasks = some t ∧ t.status = "pending")
    ∧ (∀ t, dictLookup id tasks = some t → t.status = "pending" →
        dictLookup id (cancel_task tasks id).2 = some { t with status := "cancelled" })
    ∧ ((cancel_task tasks id).1 = false → (cancel_task tasks id).2 = tasks) := by
  rcases hl : dictLookup id tasks with _ | t
  · refine ⟨?_, ?_, ?_⟩
    · simp only [cancel_task, hl]
      constructor
      · intro h; exact absurd h (by simp)
      · rintro ⟨t, ht, _⟩; exact Option.noConfusion ht
    · intro t ht; exact Option.noConfusion ht
    · intro _; simp [cancel_task, hl]
  · by_cases hp : t.status = "pending"
    · refine ⟨?_, ?_, ?_⟩
      · simp only [cancel_task, hl, hp, if_true]
        exact ⟨fun _ => ⟨t, rfl, hp⟩, fun _ => trivial⟩
      · intro t' ht hp'
        injection ht with ht
        subst ht
        simp only [cancel_task, hl, hp, if_true]
        rw [dictLookup_modify_self, hl]
        rfl
      · intro h
        simp [cancel_task, hl, hp] at h
    · refine ⟨?_, ?_, ?_⟩
      · simp only [cancel_task, hl, hp, if_false]
        constructor
        · intro h; simp at h
        · rintro ⟨t', ht, hp'⟩
          injection ht with ht
          subst ht
          exact absurd hp' hp
      · intro t' ht hp'
        injection ht with ht
        subst ht
        exact absurd hp' hp
      · intro _; simp [cancel_task, hl, hp]

/-- C4 witness: on the concrete store, cancelling the pending task
succeeds and marks it cancelled, and cancelling the completed task or an
unknown id fails. -/
theorem claim_C4_cancel_task_witness :
    (cancel_task demoStore "a").1 = true
    ∧ dictLookup "a" (cancel_task demoStore "a").2 =
        some { sampleTask "a" "pending" with status := "cancelled" }
    ∧ (cancel_task demoStore "b").1 = false
    ∧ (cancel_task demoStore "zzz").1 = false := by
  refine ⟨?_, ?_, ?_, ?_⟩
  · exact (claim_C4_cancel_task demoStore "a").1.mpr ⟨sampleTask "a" "pending", rfl, rfl⟩
  · exact (claim_C4_cancel_task demoStore "a").2.1 (sampleTask "a" "pending") rfl rfl
  · have h := (claim_C4_cancel_task demoStore "b").1
    by_contra hb
    have : (cancel_task demoStore "b").1 = true := by
      cases hx : (cancel_task demoStore "b").1
      · exact absurd hx hb
      · rfl
    obtain ⟨t, hl, hp⟩ := h.mp this
    have : t = sampleTask "b" "completed" := by
      have : some t = some (sampleTask "b" "completed") := by rw [← hl]; rfl
      exact Option.some.inj this
    subst this
    simp [sampleTask] at hp
  · have h := (claim_C4_cancel_task demoStore "zzz").1
    by_contra hb
    have : (cancel_task demoStore "zzz").1 = true := by
      cases hx : (cancel_task demoStore "zzz").1
      · exact absurd hx hb
      · rfl
    obtain ⟨t, hl, _⟩ := h.mp this
    have : (none : Option ScheduledTask) = some t := by rw [← hl]; rfl
    exact Option.noConfusion this

/-- C5: `update_task_status` is a no-op for an unknown id; for a known id
it sets exactly that task's status and overwrites the stored result only
when the supplied result is truthy (non-`None` and non-empty), while every
other task's record is unchanged. -/
theorem claim_C5_update_task_status (tasks : TaskDict) (id status : String)
    (results : Option (List (String × JsonVal))) :
    (dictLookup id tasks = none → update_task_status tasks id status results = tasks)
    ∧ (∀ t, dictLookup id tasks = some t →
        dictLookup id (update_task_status tasks id status results) =
          some { t with status := status,
                        results := if truthyResults results then results else t.results })
    ∧ (∀ id', id' ≠ id →
        dictLookup id' (update_task_status tasks id status results) =
          dictLookup id' tasks) := by
  refine ⟨?_, ?_, ?_⟩
  · intro h
    unfold update_task_status
    rw [h]
    rfl
  · intro t hl
    unfold update_task_status
    rw [hl]
    simp only [Option.isSome_some, if_pos]
    rw [dictLookup_modify_self, hl]
    by_cases ht : truthyResults results <;> simp [ht]
  · intro id' hne
    unfold update_task_status
    by_cases h : (dictLookup id tasks).isSome
    · rw [if_pos h]
      exact dictLookup_modify_other id id' _ tasks hne
    · rw [if_neg h]

/-- C5 witness: a status-only update (empty dict supplied) on the concrete
store keeps the previously recorded result, and the other task and unknown
ids are untouched. -/
theorem claim_C5_update_task_status_witness :
    dictLookup "a" (update_task_status demoStore "a" "running" (some [])) =
      some { sampleTask "a" "pending" with status := "running" }
    ∧ dictLookup "b" (update_task_status demoStore "a" "running" (some [])) =
      some (sampleTask "b" "completed")
    ∧ update_task_status demoStore "zzz" "running" none = demoStore := by
  refine ⟨?_, ?_, ?_⟩
  · have h := (claim_C5_update_task_status demoStore "a" "running" (some [])).2.1
      (sampleTask "a" "pending") rfl
    simpa using h
  · have h := (claim_C5_update_task_status demoStore "a" "running" (some [])).2.2
      "b" (by decide)
    rw [h]
    rfl
  · exact (claim_C5_update_task_status demoStore "zzz" "running" none).1 rfl

/-- C10 (implicit): `add_task` performs no duplicate check — inserting a
task whose id is already in the store replaces the existing record in
place (the store does not grow and the old task is lost); and because
intake builds ids as `task_<user_id>_<unix-seconds>`, two tasks created by
the same user in the same second get the same id, so adding both keeps a
single record holding the second task. -/
theorem claim_C10_add_task_overwrites (tasks : TaskDict) (t : ScheduledTask)
    (h : (dictLookup t.task_id tasks).isSome)
    (t1 t2 : ScheduledTask) (u ts : Int)
    (h1 : t1.task_id = makeTaskId u ts) (h2 : t2.task_id = makeTaskId u ts) :
    ((add_task tasks t).length = tasks.length
      ∧ dictLookup t.task_id (add_task tasks t) = some t)
    ∧ ((add_task (add_task tasks t1) t2).length = (add_task tasks t1).length
      ∧ dictLookup (makeTaskId u ts) (add_task (add_task tasks t1) t2) = some t2) := by
  refine ⟨⟨?_, ?_⟩, ?_, ?_⟩
  · exact dictInsert_length_of_mem t.task_id t tasks h
  · exact dictLookup_insert_self t.task_id t tasks
  · apply dictInsert_length_of_mem
    rw [h2, ← h1]
    rw [show dictLookup t1.task_id (add_task tasks t1) = some t1 from
      dictLookup_insert_self t1.task_id t1 tasks]
    rfl
  · rw [← h2]
    exact dictLookup_insert_self t2.task_id t2 (add_task tasks t1)

/-- C10 witness: two tasks for user 7 at unix second 1700000000 collide;
after both adds the store still has two entries and the collided id holds
the second task. -/
theorem claim_C10_add_task_overwrites_witness :
    ((add_task demoStore (sampleTask "a" "pending")).length = demoStore.length
      ∧ dictLookup "a" (add_task demoStore (sampleTask "a" "pending")) =
          some (sampleTask "a" "pending"))
    ∧ ((add_task (add_task demoStore (sampleTask (makeTaskId 7 1700000000) "pending"))
          (sampleTask (makeTaskId 7 1700000000) "running")).length =
        (add_task demoStore (sampleTask (makeTaskId 7 1700000000) "pending")).length
      ∧ dictLookup (makeTaskId 7 1700000000)
          (add_task (add_task demoStore (sampleTask (makeTaskId 7 1700000000) "pending"))
            (sampleTask (makeTaskId 7 1700000000) "running")) =
          some (sampleTask (makeTaskId 7 1700000000) "running")) :=
  claim_C10_add_task_overwrites demoStore (sampleTask "a" "pending") (by rfl)
    (sampleTask (makeTaskId 7 1700000000) "pending")
    (sampleTask (makeTaskId 7 1700000000) "running") 7 1700000000 rfl rfl

/-! ## A small regular-expression matcher

The classifier `extract_submission_details` (test.py:581-732) uses
`re.search(..., re.IGNORECASE)` with patterns built from literals, the
classes `\d`, `\s`, `[:\s]`, the quantifiers `*`, `+`, `?` (always over a
single-character class or a literal), alternation, and a single capturing
group.  `matchPat` enumerates the match candidates at one position in
Python's backtracking priority order (greedy quantifiers longest-first,
alternation left-first); `reSearch` returns the capture of the leftmost
match, exactly `re.search(...).group(1)`. -/

/-- Pattern AST for the fragment of `re` syntax the classifier uses. -/
inductive Pat where
  | lit (s : List Char) : Pat
  | cls (p : Char → Bool) : Pat
  | starCls (p : Char → Bool) : Pat
  | plusCls (p : Char → Bool) : Pat
  | opt (q : Pat) : Pat
  | seq (a b : Pat) : Pat
  | alt (a b : Pat) : Pat
  | group (q : Pat) : Pat

/-- Case-insensitive literal prefix: consume `s` from the head of `l`. -/
def dropLitCI : List Char → List Char → Option (List Char)
  | [], l => some l
  | _ :: _, [] => none
  | c :: cs, x :: xs => if lowerCh x = lowerCh c then dropLitCI cs xs else none

/-- Suffixes reachable by a greedy `p*`, longest consumption first. -/
def starRests (p : Char → Bool) : List Char → List (List Char)
  | [] => [[]]
  | c :: cs => if p c then starRests p cs ++ [c :: cs] else [c :: cs]

/-- First capture (if any) in a combined option. -/
def orCap (a b : Option (List Char)) : Option (List Char) :=
  match a with
  | some x => some x
  | none => b

/-- All match candidates of `pat` anchored at the head of `l`, in
backtracking priority order; each candidate is (capture of the single
group, remaining suffix). -/
def matchPat : Pat → List Char → List (Option (List Char) × List Char)
  | .lit s, l =>
    match dropLitCI s l with
    | some rest => [(none, rest)]
    | none => []
  | .cls _, [] => []
  | .cls p, c :: cs => if p c then [(none, cs)] else []
  | .starCls p, l => (starRests p l).map (fun r => (none, r))
  | .plusCls _, [] => []
  | .plusCls p, c :: cs =>
    if p c then (starRests p cs).map (fun r => (none, r)) else []
  | .opt q, l => matchPat q l ++ [(none, l)]
  | .seq a b, l =>
    (matchPat a l).flatMap (fun x =>
      (matchPat b x.2).map (fun y => (orCap x.1 y.1, y.2)))
  | .alt a b, l => matchPat a l ++ matchPat b l
  | .group q, l =>
    (matchPat q l).map (fun x => (some (l.take (l.length - x.2.length)), x.2))

/-- `re.search(pat, l).group(1)`: capture of the leftmost match. -/
def reSearch (p : Pat) : List Char → Option (List Char)
  | [] =>
    match matchPat p [] with
    | x :: _ => some (x.1.getD [])
    | [] => none
  | c :: cs =>
    match matchPat p (c :: cs) with
    | x :: _ => some (x.1.getD [])
    | [] => reSearch p cs

/-- Literal pattern from a string. -/
def litP (s : String) : Pat := .lit s.data

/-- `[:\s]*`. -/
def colonSpace : Pat := .starCls (fun c => c = ':' || isSpaceCh c)

/-- `\s*`. -/
def ws0 : Pat := .starCls isSpaceCh

/-- `\s+`. -/
def ws1 : Pat := .plusCls isSpaceCh

/-- `\d+(?:\.\d+)?`. -/
def numPat : Pat :=
  .seq (.plusCls isDigitCh) (.opt (.seq (.lit ['.']) (.plusCls isDigitCh)))

/-- `\d+(?:\.\d+)?%?`. -/
def numPctPat : Pat := .seq numPat (.opt (litP "%"))

/-- `\d+`. -/
def intPat : Pat := .plusCls isDigitCh

/-- `score_patterns` (test.py:619-624). -/
def scorePats : List Pat :=
  [ .seq (litP "Overall") (.seq ws1 (.seq (litP "Score") (.seq colonSpace (.group numPat)))),
    .seq (litP "Score") (.seq colonSpace (.group numPat)),
    .seq (litP "overall") (.seq colonSpace (.group numPat)),
    .seq (.group numPat) (.seq ws0 (.alt (.seq (litP "point") (.opt (litP "s")))
                                         (.seq (litP "pt") (.opt (litP "s"))))) ]

/-- `accuracy_patterns` (test.py:634-639). -/
def accuracyPats : List Pat :=
  [ .seq (litP "Accuracy") (.seq colonSpace (.group numPctPat)),
    .seq (litP "accuracy") (.seq colonSpace (.group numPctPat)),
    .seq (.group numPat) (.seq (litP "%") (.seq ws0 (.alt (litP "accuracy") (litP "acc")))),
    .seq (litP "correct") (.seq colonSpace (.group numPctPat)) ]

/-- `response_patterns` (test.py:652-658). -/
def responsePats : List Pat :=
  [ .seq (litP "Avg") (.seq ws1 (.seq (litP "Response")
      (.seq colonSpace (.seq (.group numPat) (.seq ws0 (litP "ms")))))),
    .seq (litP "Average") (.seq ws1 (.seq (litP "Response")
      (.seq colonSpace (.seq (.group numPat) (.seq ws0 (litP "ms")))))),
    .seq (litP "Response") (.seq ws1 (.seq (litP "Time")
      (.seq colonSpace (.seq (.group numPat) (.seq ws0 (litP "ms")))))),
    .seq (.group numPat) (.seq ws0 (.seq (litP "ms")
      (.seq ws0 (.alt (litP "response") (litP "avg"))))),
    .seq (litP "latency") (.seq colonSpace (.seq (.group numPat) (.seq ws0 (litP "ms")))) ]

/-- `position_patterns` (test.py:668-673). -/
def positionPats : List Pat :=
  [ .seq (litP "Position") (.seq colonSpace (.seq (.opt (litP "#")) (.group intPat))),
    .seq (litP "Rank") (.seq colonSpace (.seq (.opt (litP "#")) (.group intPat))),
    .seq (litP "#") (.seq (.group intPat) (.seq ws0 (.alt (litP "position") (litP "rank")))),
    .seq (litP "place") (.seq colonSpace (.group intPat)) ]

/-- `additional_patterns['f1_score']` (test.py:684). -/
def f1Pats : List Pat :=
  [ .seq (litP "F1") (.seq colonSpace (.group numPat)),
    .seq (litP "F1-Score") (.seq colonSpace (.group numPat)) ]

/-- `additional_patterns['precision']` (test.py:685). -/
def precisionPats : List Pat :=
  [ .seq (litP "Precision") (.seq colonSpace (.group numPctPat)) ]

/-- `additional_patterns['recall']` (test.py:686). -/
def recallPats : List Pat :=
  [ .seq (litP "Recall") (.seq colonSpace (.group numPctPat)) ]

/-- `additional_patterns['throughput']` (test.py:687). -/
def throughputPats : List Pat :=
  [ .seq (litP "Throughput") (.seq colonSpace (.group numPat)),
    .seq (litP "RPS") (.seq colonSpace (.group numPat)) ]

/-- First pattern in the ordered list whose search fires; its capture. -/
def firstCapture (pats : List Pat) (context : List Char) : Option (List Char) :=
  match pats with
  | [] => none
  | p :: rest =>
    match reSearch p context with
    | some c => some c
    | none => firstCapture rest context

/-! ## The result classifier (`extract_submission_details`, test.py) -/

/-- `ClassificationResult`: the dict returned by
`extract_submission_details`. -/
structure Classification where
  status : String
  has_results : Bool
  is_processing : Bool
  has_error : Bool
  details : String
  metrics : List (String × String)

/-- Does any of the (lower-case) keywords occur, case-insensitively? -/
def anyContainsCI (kws : List String) (context : List Char) : Bool :=
  kws.any (fun k => containsCI k.data context)

/-- Status detection (test.py:601-613): the four alternation patterns
tried in dict order, first hit wins. -/
def foundStatus (context : List Char) : String :=
  if anyContainsCI ["completed", "success", "✅"] context then "completed"
  else if anyContainsCI ["processing", "evaluating", "pending", "⏳"] context then "processing"
  else if anyContainsCI ["failed", "error", "timeout", "❌"] context then "failed"
  else if anyContainsCI ["submitted", "received"] context then "submitted"
  else "unknown"

/-- `metrics['overall_score']` (test.py:626-631): first score pattern that
fires, capture stored verbatim. -/
def extractScore (context : List Char) : Option (List Char) :=
  firstCapture scorePats context

/-- `metrics['accuracy']` (test.py:641-649): first accuracy pattern that
fires; a trailing `%` is appended when the capture lacks one. -/
def extractAccuracy (context : List Char) : Option (List Char) :=
  (firstCapture accuracyPats context).map
    (fun v => if v.getLast? = some '%' then v else v ++ ['%'])

/-- `metrics['avg_response']` (test.py:660-665): capture with `ms`
appended unconditionally (`f"{match.group(1)}ms"`). -/
def extractResponse (context : List Char) : Option (List Char) :=
  (firstCapture responsePats context).map (fun v => v ++ ['m', 's'])

/-- `metrics['position']` (test.py:675-680): capture with `#` prepended
(`f"#{match.group(1)}"`). -/
def extractPosition (context : List Char) : Option (List Char) :=
  (firstCapture positionPats context).map (fun v => '#' :: v)

/-- The four additional metrics (test.py:690-696): captures stored
verbatim, no unit normalization. -/
def extractF1 (context : List Char) : Option (List Char) :=
  firstCapture f1Pats context

/-- `metrics['precision']`, stored verbatim. -/
def extractPrecision (context : List Char) : Option (List Char) :=
  firstCapture precisionPats context

/-- `metrics['recall']`, stored verbatim. -/
def extractRecall (context : List Char) : Option (List Char) :=
  firstCapture recallPats context

/-- `metrics['throughput']`, stored verbatim. -/
def extractThroughput (context : List Char) : Option (List Char) :=
  firstCapture throughputPats context

/-- A conditional dict entry: present only when the extraction fired. -/
def optEntry (k : String) (v : Option (List Char)) : List (String × String) :=
  match v with
  | some x => [(k, String.mk x)]
  | none => []

/-- The `metrics` dict in its insertion order. -/
def metricsOf (context : List Char) : List (String × String) :=
  optEntry "overall_score" (extractScore context)
    ++ optEntry "accuracy" (extractAccuracy context)
    ++ optEntry "avg_response" (extractResponse context)
    ++ optEntry "position" (extractPosition context)
    ++ optEntry "f1_score" (extractF1 context)
    ++ optEntry "precision" (extractPrecision context)
    ++ optEntry "recall" (extractRecall context)
    ++ optEntry "throughput" (extractThroughput context)

/-- `has_results` (test.py:699): non-empty metrics AND at least one of the
three primary keys present. -/
def hasResultsOf (context : List Char) : Bool :=
  decide (0 < (metricsOf context).length)
    && ((dictLookup "overall_score" (metricsOf context)).isSome
        || (dictLookup "accuracy" (metricsOf context)).isSome
        || (dictLookup "avg_response" (metricsOf context)).isSome)

/-- `error_keywords` (test.py:702). -/
def errorKeywords : List String :=
  ["error", "failed", "timeout", "invalid", "rejected"]

/-- `has_error` (test.py:703). -/
def hasErrorOf (context : List Char) : Bool :=
  anyContainsCI errorKeywords context || decide (foundStatus context = "failed")

/-- The comma-joined summary of present primary and position metrics
(test.py:708-720). -/
def detailsOf (context : List Char) : String :=
  if hasResultsOf context then
    let parts :=
      (match dictLookup "overall_score" (metricsOf context) with
        | some v => ["Score: " ++ v] | none => [])
      ++ (match dictLookup "accuracy" (metricsOf context) with
        | some v => ["Accuracy: " ++ v] | none => [])
      ++ (match dictLookup "avg_response" (metricsOf context) with
        | some v => ["Response: " ++ v] | none => [])
      ++ (match dictLookup "position" (metricsOf context) with
        | some v => ["Position: " ++ v] | none => [])
    "Status: " ++ foundStatus context ++ ", " ++ String.intercalate ", " parts
  else
    "Status: " ++ foundStatus context ++ ", No metrics found"

/-- Classification of the context window once the marker was located. -/
def classifyContext (context : List Char) : Classification :=
  { status := foundStatus context,
    has_results := hasResultsOf context,
    is_processing :=
      (foundStatus context = "processing" || foundStatus context = "submitted")
        && !hasResultsOf context && !hasErrorOf context,
    has_error := hasErrorOf context,
    details := detailsOf context,
    metrics := metricsOf context }

/-- The record returned when the marker is absent (test.py:583-591). -/
def notFoundClassification : Classification :=
  { status := "unknown", has_results := false, is_processing := false,
    has_error := false, details := "Submission not found on page", metrics := [] }

/-- The ±2000-character context window around the marker position
(test.py:594-596).  Python's `max(0, notes_pos - 2000)` is Nat truncated
subtraction. -/
def contextWindow (page : List Char) (notes_pos : Nat) : List Char :=
  (page.take (min page.length (notes_pos + 2000))).drop (notes_pos - 2000)

/-- `extract_submission_details(page_text, target_notes)`
(test.py:581-732): find the marker case-insensitively, cut a ±2000
character window around it, and classify that window. -/
def extract_submission_details (page_text target_notes : String) : Classification :=
  match findSub (lowerList target_notes.data) (lowerList page_text.data) with
  | none => notFoundClassification
  | some notes_pos => classifyContext (contextWindow page_text.data notes_pos)

/-- Equation lemma: marker absent. -/
theorem extract_eq_notfound (page notes : String)
    (hf : findSub (lowerList notes.data) (lowerList page.data) = none) :
    extract_submission_details page notes = notFoundClassification := by
  unfold extract_submission_details
  rw [hf]

/-- Equation lemma: marker found at `pos`. -/
theorem extract_eq_found (page notes : String) (pos : Nat)
    (hf : findSub (lowerList notes.data) (lowerList page.data) = some pos) :
    extract_submission_details page notes = classifyContext (contextWindow page.data pos) := by
  unfold extract_submission_details
  rw [hf]

/-! ## Claims C1 and C6 — the classifier -/

theorem dictLookup_pos_of_isSome {α : Type} (k : String) (d : List (String × α))
    (h : (dictLookup k d).isSome) : 0 < d.length := by
  cases d with
  | nil => simp [dictLookup] at h
  | cons hd tl => simp

theorem lookup_skip (k k' : String) (v : Option (List Char)) (d : List (String × String))
    (h : k' ≠ k) : dictLookup k' (optEntry k v ++ d) = dictLookup k' d := by
  cases v <;> simp [optEntry, dictLookup, if_neg (Ne.symm h)]

theorem lookup_hit (k : String) (v : Option (List Char)) (d : List (String × String))
    (hd : dictLookup k d = none) :
    dictLookup k (optEntry k v ++ d) = v.map String.mk := by
  cases v <;> simp [optEntry, dictLookup, hd]

theorem metricsOf_lookup_accuracy (c : List Char) :
    dictLookup "accuracy" (metricsOf c) = (extractAccuracy c).map String.mk := by
  unfold metricsOf
  simp only [List.append_assoc]
  rw [lookup_skip _ _ _ _ (by decide)]
  apply lookup_hit
  rw [lookup_skip _ _ _ _ (by decide), lookup_skip _ _ _ _ (by decide),
    lookup_skip _ _ _ _ (by decide), lookup_skip _ _ _ _ (by decide),
    lookup_skip _ _ _ _ (by decide)]
  cases hr : extractThroughput c <;> simp [optEntry, dictLookup]

theorem metricsOf_lookup_response (c : List Char) :
    dictLookup "avg_response" (metricsOf c) = (extractResponse c).map String.mk := by
  unfold metricsOf
  simp only [List.append_assoc]
  rw [lookup_skip _ _ _ _ (by decide), lookup_skip _ _ _ _ (by decide)]
  apply lookup_hit
  rw [lookup_skip _ _ _ _ (by decide), lookup_skip _ _ _ _ (by decide),
    lookup_skip _ _ _ _ (by decide), lookup_skip _ _ _ _ (by decide)]
  cases hr : extractThroughput c <;> simp [optEntry, dictLookup]

theorem hasResultsOf_eq (c : List Char) :
    hasResultsOf c
      = ((dictLookup "overall_score" (metricsOf c)).isSome
          || (dictLookup "accuracy" (metricsOf c)).isSome
          || (dictLookup "avg_response" (metricsOf c)).isSome) := by
  unfold hasResultsOf
  cases hx : ((dictLookup "overall_score" (metricsOf c)).isSome
      || (dictLookup "accuracy" (metricsOf c)).isSome
      || (dictLookup "avg_response" (metricsOf c)).isSome) with
  | false => simp [hx]
  | true =>
    have hx' : (dictLookup "overall_score" (metricsOf c)).isSome = true
        ∨ (dictLookup "accuracy" (metricsOf c)).isSome = true
        ∨ (dictLookup "avg_response" (metricsOf c)).isSome = true := by
      simpa [or_assoc] using hx
    have hpos : 0 < (metricsOf c).length := by
      rcases hx' with h | h | h
      · exact dictLookup_pos_of_isSome _ _ h
      · exact dictLookup_pos_of_isSome _ _ h
      · exact dictLookup_pos_of_isSome _ _ h
    simp [hx, hpos]

/-- Projection of `classifyContext`: the `has_results` field. -/
theorem classifyContext_has_results (c : List Char) :
    (classifyContext c).has_results = hasResultsOf c := rfl

/-- Projection of `classifyContext`: the `metrics` field. -/
theorem classifyContext_metrics (c : List Char) :
    (classifyContext c).metrics = metricsOf c := rfl

/-- The classifier's `has_results` equals presence of a primary metric, on
every input (found or not). -/
theorem extract_has_results_eq (page notes : String) :
    (extract_submission_details page notes).has_results
      = ((dictLookup "overall_score" (extract_submission_details page notes).metrics).isSome
          || (dictLookup "accuracy" (extract_submission_details page notes).metrics).isSome
          || (dictLookup "avg_response" (extract_submission_details page notes).metrics).isSome) := by
  cases hf : findSub (lowerList notes.data) (lowerList page.data) with
  | none => rw [extract_eq_notfound page notes hf]; rfl
  | some pos =>
    rw [extract_eq_found page notes pos hf, classifyContext_has_results,
      classifyContext_metrics]
    exact hasResultsOf_eq _

/-- Scenario A page text (spec §8): primary metrics near the marker. -/
def scenarioPage : String :=
  "submission alpha42 queued Overall Score: 87.5 Accuracy: 92% done"

/-- Scenario A marker. -/
def scenarioNotes : String := "alpha42"

set_option maxRecDepth 100000 in
/-- C1: whenever the marker occurs in the page text (case-insensitively),
`has_results` is true iff at least one of the three primary metrics
(overall_score, accuracy, avg_response) was extracted — secondary metrics
alone never set it; and on the Scenario A text the extracted metrics are
overall_score = "87.5", accuracy = "92%", with has_results = true. -/
theorem claim_C1_has_results_iff_primary (page notes : String)
    (h : findSub (lowerList notes.data) (lowerList page.data) ≠ none) :
    ((extract_submission_details page notes).has_results = true ↔
      ((dictLookup "overall_score" (extract_submission_details page notes).metrics).isSome
        ∨ (dictLookup "accuracy" (extract_submission_details page notes).metrics).isSome
        ∨ (dictLookup "avg_response" (extract_submission_details page notes).metrics).isSome))
    ∧ dictLookup "overall_score" (extract_submission_details scenarioPage scenarioNotes).metrics
        = some "87.5"
    ∧ dictLookup "accuracy" (extract_submission_details scenarioPage scenarioNotes).metrics
        = some "92%"
    ∧ (extract_submission_details scenarioPage scenarioNotes).has_results = true := by
  refine ⟨?_, by decide, by decide, by decide⟩
  rw [extract_has_results_eq page notes]
  simp [or_assoc]

set_option maxRecDepth 100000 in
/-- C1 witness: the theorem applied to Scenario A, the marker-presence
hypothesis discharged by evaluation. -/
theorem claim_C1_has_results_iff_primary_witness :
    (extract_submission_details scenarioPage scenarioNotes).has_results = true :=
  (claim_C1_has_results_iff_primary scenarioPage scenarioNotes (by decide)).1.mpr
    (Or.inl (by decide))

/-- Page text refuting C6: the marker is present and `Precision: 95` (no
percent sign in the text) is extracted. -/
def cePage : String := "alpha42 Precision: 95"

/-- Marker for the C6 counterexample. -/
def ceNotes : String := "alpha42"

set_option maxRecDepth 100000 in
/-- C6 counterexample: the marker is found, `precision` is extracted as
"95", and "95" does not end with '%' — the code normalizes only
`accuracy` to a trailing '%', not `precision` or `recall`
(test.py:685-694 stores `match.group(1)` verbatim). -/
theorem claim_C6_counterexample :
    findSub (lowerList ceNotes.data) (lowerList cePage.data) ≠ none
    ∧ dictLookup "precision" (extract_submission_details cePage ceNotes).metrics = some "95"
    ∧ ¬ (("95" : String).data.getLast? = some '%') := by
  refine ⟨by decide, by decide, by decide⟩

/-- An accuracy value stored in the metrics dict always ends in '%'. -/
theorem accuracy_val_pct (c : List Char) (v : String)
    (hv : (extractAccuracy c).map String.mk = some v) : v.data.getLast? = some '%' := by
  unfold extractAccuracy at hv
  cases hc : firstCapture accuracyPats c with
  | none => rw [hc] at hv; exact Option.noConfusion hv
  | some x =>
    rw [hc] at hv
    have hv2 : some (String.mk (if x.getLast? = some '%' then x else x ++ ['%'])) = some v := hv
    injection hv2 with hv2
    subst hv2
    show (if x.getLast? = some '%' then x else x ++ ['%']).getLast? = some '%'
    by_cases hl : x.getLast? = some '%'
    · rw [if_pos hl]; exact hl
    · rw [if_neg hl]; exact List.getLast?_concat x

/-- An avg_response value stored in the metrics dict always ends in "ms". -/
theorem response_val_ms (c : List Char) (v : String)
    (hv : (extractResponse c).map String.mk = some v) : ['m', 's'] <:+ v.data := by
  unfold extractResponse at hv
  cases hc : firstCapture responsePats c with
  | none => rw [hc] at hv; exact Option.noConfusion hv
  | some x =>
    rw [hc] at hv
    have hv2 : some (String.mk (x ++ ['m', 's'])) = some v := hv
    injection hv2 with hv2
    subst hv2
    exact List.suffix_append x ['m', 's']

/-- C6 amended: whenever the marker is found, an extracted `accuracy`
always carries a trailing '%' (appended when the text lacked it) and an
extracted `avg_response` always carries a trailing "ms" (appended
unconditionally); `precision` and `recall` are stored verbatim, so they
carry '%' only when the page text did. -/
theorem claim_C6_unit_suffixes (page notes : String)
    (h : findSub (lowerList notes.data) (lowerList page.data) ≠ none) :
    (∀ v : String,
      dictLookup "accuracy" (extract_submission_details page notes).metrics = some v →
        v.data.getLast? = some '%')
    ∧ (∀ v : String,
      dictLookup "avg_response" (extract_submission_details page notes).metrics = some v →
        ['m', 's'] <:+ v.data) := by
  cases hf : findSub (lowerList notes.data) (lowerList page.data) with
  | none => exact absurd hf h
  | some pos =>
    rw [extract_eq_found page notes pos hf, classifyContext_metrics]
    constructor
    · intro v hv
      rw [metricsOf_lookup_accuracy] at hv
      exact accuracy_val_pct _ v hv
    · intro v hv
      rw [metricsOf_lookup_response] at hv
      exact response_val_ms _ v hv

/-- Page for the C6 witness: accuracy in the text has no '%' and the
response capture has no "ms", yet both stored values carry the unit. -/
def c6Page : String := "alpha42 Accuracy: 93 Avg Response: 120 ms"

set_option maxRecDepth 100000 in
/-- C6 witness: the amended theorem applied to a concrete page. -/
theorem claim_C6_unit_suffixes_witness :
    ("93%" : String).data.getLast? = some '%' ∧ ['m', 's'] <:+ ("120ms" : String).data := by
  constructor
  · exact (claim_C6_unit_suffixes c6Page "alpha42" (by decide)).1 "93%" (by decide)
  · exact (claim_C6_unit_suffixes c6Page "alpha42" (by decide)).2 "120ms" (by decide)

/-! ## Claim C7 — the monitoring loop (`monitor_results_with_cooldown_detection`) -/

/-- The dict returned by `monitor_results_with_cooldown_detection`
(mann.py:629-775).  Each branch returns a dict with a different key set;
`Option Bool` fields model keys that are present only in some branches,
`found` is present in every branch. -/
structure MonitorOutcome where
  found : Bool
  cooldown : Option Bool
  has_results : Option Bool
  has_metrics : Option Bool
  has_error : Option Bool
  timeout : Option Bool

/-- `max_initial_checks` (mann.py:632). -/
def max_initial_checks : Nat := 2

/-- `max_result_checks` (mann.py:633). -/
def max_result_checks : Nat := 6000

/-- Phase 1 (mann.py:639-657): each attempt fetches the submissions page
(`none` models a fetch that raised — caught, logged, loop continues) and
checks `target_notes.lower() in page_text.lower()`; the loop breaks on the
first hit, so the flag equals an existence check over the fetched pages. -/
def submissionFound (pages : List (Option String)) (notes : String) : Bool :=
  pages.any (fun p =>
    match p with
    | some page => containsCI notes.data page.data
    | none => false)

/-- The cooldown record (mann.py:678-682). -/
def cooldownOutcome : MonitorOutcome :=
  { found := false, cooldown := some true, has_results := none,
    has_metrics := none, has_error := none, timeout := none }

/-- Phase 2 (mann.py:687-775): classify each fetched page in turn; a
`has_results` classification returns the scored record, otherwise a
`has_error` classification returns the errored record, otherwise the loop
continues (including the still-processing notification path, which does
not return); an exception (`none`) counts as a spent cycle; exhausting the
budget returns the timeout record. -/
def phase2 (notes : String) : List (Option String) → MonitorOutcome
  | [] =>
    { found := true, cooldown := none, has_results := some false,
      has_metrics := none, has_error := none, timeout := some true }
  | p :: rest =>
    match p with
    | none => phase2 notes rest
    | some page =>
      let details := extract_submission_details page notes
      if details.has_results then
        { found := true, cooldown := none, has_results := some true,
          has_metrics := some true, has_error := none, timeout := none }
      else if details.has_error then
        { found := true, cooldown := none, has_results := some false,
          has_metrics := none, has_error := some true, timeout := none }
      else phase2 notes rest

/-- `monitor_results_with_cooldown_detection`, parameterized by the two
sequences of page fetch results (phase 1 makes `max_initial_checks`
attempts, phase 2 up to `max_result_checks`). -/
def monitor_results (pages1 pages2 : List (Option String)) (notes : String) : MonitorOutcome :=
  if submissionFound pages1 notes then phase2 notes pages2
  else cooldownOutcome

/-- C7: when the confirmation phase exhausts all of its attempts without
the marker appearing (case-insensitively) in any fetched page, monitoring
returns the cooldown record — found = false and cooldown = true — and in
particular not the errored outcome. -/
theorem claim_C7_cooldown_on_exhaustion (pages1 pages2 : List (Option String))
    (notes : String) (hlen : pages1.length = max_initial_checks)
    (h : ∀ p ∈ pages1, ∀ s : String, p = some s → containsCI notes.data s.data = false) :
    monitor_results pages1 pages2 notes = cooldownOutcome
    ∧ (monitor_results pages1 pages2 notes).found = false
    ∧ (monitor_results pages1 pages2 notes).cooldown = some true
    ∧ (monitor_results pages1 pages2 notes).has_error ≠ some true := by
  have hnf : submissionFound pages1 notes = false := by
    unfold submissionFound
    rw [List.any_eq_false]
    intro p hp
    cases p with
    | none => simp
    | some s => simpa using h (some s) hp s rfl
  have hm : monitor_results pages1 pages2 notes = cooldownOutcome := by
    unfold monitor_results
    rw [hnf]
    simp
  refine ⟨hm, ?_, ?_, ?_⟩ <;> rw [hm] <;> simp [cooldownOutcome]

/-- C7 witness: two fetched pages without the marker (the second attempt
raising) lead to the cooldown record. -/
theorem claim_C7_cooldown_on_exhaustion_witness :
    monitor_results [some "no results table yet", none] [] "alpha42" = cooldownOutcome :=
  (claim_C7_cooldown_on_exhaustion [some "no results table yet", none] [] "alpha42"
    (by decide)
    (by
      intro p hp s hs
      rcases List.mem_cons.mp hp with h1 | h2
      · subst h1; injection hs with hs; subst hs; decide
      · rcases List.mem_cons.mp h2 with h3 | h4
        · rw [h3] at hs; exact Option.noConfusion hs
        · exact absurd h4 (List.not_mem_nil p))).1

/-! ## Claims C3 and C8 — the time parser (`parse_time_input`, mann.py:428-491)

The parser works on `text.strip().lower()`.  `re.match` anchors at the
start; the quantifiers `\d{1,2}` and `\s*`/`\s+` are greedy with
backtracking.  All datetimes involved are IST-localized, so comparisons
are the lexicographic field comparison captured by `dtKey`. -/

/-- Python `int()` of a digit token. -/
def digitsToNat (l : List Char) : Nat :=
  l.foldl (fun acc c => acc * 10 + (c.toNat - 48)) 0

/-- `\d{1,2}` immediately followed by a character satisfying `next`, with
re's greedy backtracking (two digits preferred).  Returns the digit token
and the rest beginning at the `next` character. -/
def d12Before (next : Char → Bool) (l : List Char) : Option (List Char × List Char) :=
  match l with
  | a :: rest =>
    if isDigitCh a then
      match rest with
      | b :: rest2 =>
        if isDigitCh b then
          match rest2 with
          | c :: _ =>
            if next c then some ([a, b], rest2)
            else if next b then some ([a], rest)
            else none
          | [] => if next b then some ([a], rest) else none
        else if next b then some ([a], rest) else none
      | [] => none
    else none
  | [] => none

/-- `\d{2}`: exactly two digits. -/
def take2Digits (l : List Char) : Option (List Char × List Char) :=
  match l with
  | a :: b :: r => if isDigitCh a && isDigitCh b then some ([a, b], r) else none
  | _ => none

/-- `\d{4}`: exactly four digits. -/
def take4Digits (l : List Char) : Option (List Char × List Char) :=
  match l with
  | a :: b :: c :: d :: r =>
    if isDigitCh a && isDigitCh b && isDigitCh c && isDigitCh d then
      some ([a, b, c, d], r)
    else none
  | _ => none

/-- `re.match(r'(\d{1,2}):(\d{2})\s*(am|pm)', text)` on the lowered text
(mann.py:448): hour token, minute token, and the am/pm flag (true = pm).
`am`/`pm` do not start with whitespace, so the greedy `\s*` needs no
backtracking. -/
def match12h (l : List Char) : Option (Nat × Nat × Bool) :=
  match d12Before (· = ':') l with
  | none => none
  | some (hTok, rest) =>
    match rest with
    | _ :: rest1 =>
      match take2Digits rest1 with
      | none => none
      | some (mTok, rest2) =>
        let rest3 := rest2.dropWhile isSpaceCh
        if startsWithList ['a', 'm'] rest3 then
          some (digitsToNat hTok, digitsToNat mTok, false)
        else if startsWithList ['p', 'm'] rest3 then
          some (digitsToNat hTok, digitsToNat mTok, true)
        else none
    | [] => none

/-- `re.match(r'(\d{1,2}):(\d{2})', text)` (mann.py:449). -/
def match24h (l : List Char) : Option (Nat × Nat) :=
  match d12Before (· = ':') l with
  | none => none
  | some (hTok, rest) =>
    match rest with
    | _ :: rest1 =>
      match take2Digits rest1 with
      | none => none
      | some (mTok, _) => some (digitsToNat hTok, digitsToNat mTok)
    | [] => none

/-- The 12-hour to 24-hour adjustment of `_parse_12hour` (mann.py:481-484). -/
def adjusted12Hour (h : Nat) (isPM : Bool) : Nat :=
  if isPM && h ≠ 12 then h + 12
  else if !isPM && h = 12 then 0
  else h

/-- `_parse_12hour` (mann.py:475-486): adjust, then
`datetime.min.time().replace(hour=..., minute=...)` which raises
ValueError on out-of-range values. -/
def parse12Hour (h mi : Nat) (isPM : Bool) : Except String (Nat × Nat) :=
  let h2 := adjusted12Hour h isPM
  if 24 ≤ h2 then .error "hour must be in 0..23"
  else if 60 ≤ mi then .error "minute must be in 0..59"
  else .ok (h2, mi)

/-- `_parse_24hour` (mann.py:488-491): `time().replace` validation only. -/
def parse24Hour (h mi : Nat) : Except String (Nat × Nat) :=
  if 24 ≤ h then .error "hour must be in 0..23"
  else if 60 ≤ mi then .error "minute must be in 0..59"
  else .ok (h, mi)

/-- `re.match(r'(\d{4}-\d{1,2}-\d{1,2})\s+(.+)', text)` (mann.py:440):
on success, (group 1, group 2).  `.` excludes the newline; since the text
was stripped, the remainder after `\s+` is never empty-or-newline-only,
so the greedy `\s+` needs no backtracking on reachable inputs. -/
def dateLeadMatch (l : List Char) : Option (List Char × List Char) :=
  match take4Digits l with
  | none => none
  | some (yTok, rest) =>
    match rest with
    | '-' :: rest1 =>
      match d12Before (· = '-') rest1 with
      | none => none
      | some (mTok, rest2) =>
        match rest2 with
        | '-' :: rest3 =>
          match d12Before isSpaceCh rest3 with
          | none => none
          | some (dTok, rest4) =>
            let rest5 := rest4.dropWhile isSpaceCh
            match rest5 with
            | [] => none
            | c :: _ =>
              if c = '\n' then none
              else some (yTok ++ '-' :: mTok ++ '-' :: dTok, rest5.takeWhile (· ≠ '\n'))
        | _ => none
    | _ => none

/-- `datetime.strptime(date_str, '%Y-%m-%d').date()` (mann.py:443) on a
token of shape `\d{4}-\d{1,2}-\d{1,2}`: strptime's field patterns reject
month/day value 0 or out of range and the datetime constructor validates
the day against the month length and the year against MINYEAR; every
failure is a ValueError. -/
def strptimeYmd (l : List Char) : Except String (Nat × Nat × Nat) :=
  match take4Digits l with
  | none => .error "time data does not match format %Y-%m-%d"
  | some (yTok, rest) =>
    match rest with
    | '-' :: rest1 =>
      match d12Before (· = '-') rest1 with
      | none => .error "time data does not match format %Y-%m-%d"
      | some (mTok, rest2) =>
        match rest2 with
        | '-' :: rest3 =>
          let dTok := rest3.takeWhile isDigitCh
          let rest4 := rest3.dropWhile isDigitCh
          if dTok.length = 0 || 2 < dTok.length || !rest4.isEmpty then
            .error "unconverted data remains"
          else
            let y := digitsToNat yTok
            let m := digitsToNat mTok
            let d := digitsToNat dTok
            if m = 0 || 12 < m then .error "time data does not match format %Y-%m-%d"
            else if d = 0 || 31 < d then .error "time data does not match format %Y-%m-%d"
            else if y = 0 then .error "year 0 is out of range"
            else if daysInMonth y m < d then .error "day is out of range for month"
            else .ok (y, m, d)
        | _ => .error "time data does not match format %Y-%m-%d"
    | _ => .error "time data does not match format %Y-%m-%d"

/-- The literal `'tomorrow'`. -/
def tomorrowTok : List Char := ['t', 'o', 'm', 'o', 'r', 'r', 'o', 'w']

/-- The `strip/lower/tomorrow` preprocessing (mann.py:430-437): the
remaining text and the provisional target date (`now.date()`, or the date
of `now + timedelta(days=1)` after a `tomorrow` prefix — wall-clock day
arithmetic, IST has no DST). -/
def preprocessTom (text : String) (now : PyDateTime) : List Char × (Nat × Nat × Nat) :=
  let t0 := lowerList (stripList text.data)
  if startsWithList tomorrowTok t0 then
    (stripList (removeAll tomorrowTok t0), nextDate (dateOf now))
  else (t0, dateOf now)

/-- The matched time token, fed through the per-pattern parser exactly as
the loop at mann.py:447-457 does: the 12-hour pattern is tried first and,
when it matches, its parser runs (and may raise) with no fallback to the
24-hour pattern. -/
def timeTokenOf (t : List Char) : Option (Except String (Nat × Nat)) :=
  match match12h t with
  | some (h, mi, pm) => some (parse12Hour h mi pm)
  | none =>
    match match24h t with
    | some (h, mi) => some (parse24Hour h mi)
    | none => none

/-- The day-adjustment rule of mann.py:466-468 applied to matched time
values: when the combined instant is not in the future, no explicit date
was given and the remaining text has no `tomorrow` lead (which, after the
`replace`, is only possible when no time token matched anyway), roll the
target date one day forward. -/
def adjustedCombine (t : List Char) (tDate : Nat × Nat × Nat) (dateExplicit : Bool)
    (now : PyDateTime) (h mi : Nat) : PyDateTime :=
  if dtLe (combineIST tDate h mi) now && !dateExplicit
      && !startsWithList tomorrowTok t then
    combineIST (nextDate tDate) h mi
  else combineIST tDate h mi

/-- The tail of `parse_time_input` (mann.py:446-473): parse the time
token, combine with the target date, roll one day forward when the result
is past and the date was implicit, and require a strictly future
instant. -/
def finishTime (t : List Char) (tDate : Nat × Nat × Nat) (dateExplicit : Bool)
    (now : PyDateTime) : Except String PyDateTime :=
  match timeTokenOf t with
  | none => .error "Could not parse time format"
  | some (.error e) => .error e
  | some (.ok (h, mi)) =>
    let dt1 := adjustedCombine t tDate dateExplicit now h mi
    if dtLe dt1 now then .error "Scheduled time must be in the future"
    else .ok dt1

/-- `parse_time_input` (mann.py:428-473), with `datetime.now(IST)` passed
explicitly.  Returns the IST-localized scheduled instant or the ValueError
message. -/
def parse_time_input (text : String) (now : PyDateTime) : Except String PyDateTime :=
  let t1 := (preprocessTom text now).1
  let tDate := (preprocessTom text now).2
  match dateLeadMatch t1 with
  | some (dateTok, t2) =>
    match strptimeYmd dateTok with
    | .error e => .error e
    | .ok ymd => finishTime t2 ymd true now
  | none => finishTime t1 tDate false now

theorem daysInMonth_le31 (y m : Nat) : daysInMonth y m ≤ 31 := by
  unfold daysInMonth
  split_ifs <;> omega

theorem timeKey_lt_day (dt : PyDateTime) (hval : ValidDT dt) :
    timeKey dt < 86400000000 := by
  obtain ⟨_, _, _, _, _, _, hh, hm, hs, hu, _⟩ := hval
  unfold timeKey
  omega

theorem dateKey_lt_nextDate (y m d : Nat) (hm : m ≤ 12) (hd : d ≤ daysInMonth y m) :
    dateKey (y, m, d) < dateKey (nextDate (y, m, d)) := by
  have h31 := daysInMonth_le31 y m
  show dateKey (y, m, d) < dateKey (if d < daysInMonth y m then (y, m, d + 1)
      else if m < 12 then (y, m + 1, 1) else (y + 1, 1, 1))
  split_ifs with h1 h2 <;> (unfold dateKey; dsimp only; omega)

/-- Rolling the target date one day forward always lands strictly after
`now`: the combined instant has a later date whatever the time fields. -/
theorem dtLe_nextDay_false (now : PyDateTime) (hval : ValidDT now) (h mi : Nat) :
    dtLe (combineIST (nextDate (dateOf now)) h mi) now = false := by
  have hdk : dateKey (dateOf now) < dateKey (nextDate (dateOf now)) := by
    obtain ⟨_, _, _, hm2, _, hd2, _⟩ := hval
    exact dateKey_lt_nextDate now.year now.month now.day hm2 hd2
  have htk := timeKey_lt_day now hval
  unfold dtLe
  rw [decide_eq_false_iff_not]
  intro hle
  unfold dtKey at hle
  have hcd : dateOf (combineIST (nextDate (dateOf now)) h mi) = nextDate (dateOf now) := rfl
  rw [hcd] at hle
  have h0 : 0 ≤ timeKey (combineIST (nextDate (dateOf now)) h mi) := Nat.zero_le _
  omega

/-- When the time token parses, the combined instant is not in the
future, the date is implicit and the remaining text has no `tomorrow`
lead, `finishTime` rolls one day forward. -/
theorem finishTime_ok_of_adjust (t : List Char) (tDate : Nat × Nat × Nat)
    (now : PyDateTime) (h mi : Nat)
    (htok : timeTokenOf t = some (.ok (h, mi)))
    (hpast : dtLe (combineIST tDate h mi) now = true)
    (hnotom : startsWithList tomorrowTok t = false)
    (hfut : dtLe (combineIST (nextDate tDate) h mi) now = false) :
    finishTime t tDate false now = .ok (combineIST (nextDate tDate) h mi) := by
  unfold finishTime
  rw [htok]
  simp [adjustedCombine, hpast, hnotom, hfut]

/-- C8: for a bare time input (no explicit `YYYY-M-D` date, no `tomorrow`
prefix) whose time-of-day on the current date is not strictly after `now`,
the parser returns that time-of-day on the following day. -/
theorem claim_C8_implicit_past_rolls_forward (text : String) (now : PyDateTime)
    (hval : ValidDT now)
    (hnotom : startsWithList tomorrowTok (lowerList (stripList text.data)) = false)
    (hnodate : dateLeadMatch (lowerList (stripList text.data)) = none)
    (h mi : Nat)
    (htok : timeTokenOf (lowerList (stripList text.data)) = some (.ok (h, mi)))
    (hpast : dtLe (combineIST (dateOf now) h mi) now = true) :
    parse_time_input text now = .ok (combineIST (nextDate (dateOf now)) h mi) := by
  have hpre : preprocessTom text now = (lowerList (stripList text.data), dateOf now) := by
    unfold preprocessTom
    simp [hnotom]
  unfold parse_time_input
  rw [hpre]
  simp only
  rw [hnodate]
  exact finishTime_ok_of_adjust _ _ now h mi htok hpast hnotom
    (dtLe_nextDay_false now hval h mi)

/-- C8 witness: Scenario D — parsing `9:30 AM` when now is
2024-01-15 14:00 IST yields 2024-01-16 09:30 IST. -/
theorem claim_C8_implicit_past_rolls_forward_witness :
    parse_time_input "9:30 AM" sampleDT
      = .ok { year := 2024, month := 1, day := 16, hour := 9, minute := 30,
              second := 0, microsecond := 0, offMinutes := istOff } :=
  claim_C8_implicit_past_rolls_forward "9:30 AM" sampleDT (by decide) rfl
    rfl 9 30 rfl (by decide)

/-! ## Claim C3 — characterizing when the parser raises -/

/-- The raise condition for the time-token part of the input: no pattern
matches, or the matched values are out of range (after the 12-hour
adjustment; the matching parser raises with no fallback), or the combined,
possibly day-adjusted, instant is not strictly in the future. -/
def TokenOrFutureRaise (t : List Char) (tDate : Nat × Nat × Nat)
    (dateExplicit : Bool) (now : PyDateTime) : Prop :=
  (match12h t = none ∧ match24h t = none)
  ∨ (∃ h mi pm, match12h t = some (h, mi, pm) ∧ (24 ≤ adjusted12Hour h pm ∨ 60 ≤ mi))
  ∨ (match12h t = none ∧ ∃ h mi, match24h t = some (h, mi) ∧ (24 ≤ h ∨ 60 ≤ mi))
  ∨ (∃ h mi, timeTokenOf t = some (.ok (h, mi))
      ∧ dtLe (adjustedCombine t tDate dateExplicit now h mi) now = true)

/-- The full raise condition of `parse_time_input`: an invalid explicit
date, or the token/future condition on the remaining text with the
corresponding target date. -/
def RaiseCond (text : String) (now : PyDateTime) : Prop :=
  match dateLeadMatch (preprocessTom text now).1 with
  | some (dateTok, t2) =>
    (∃ e, strptimeYmd dateTok = .error e)
    ∨ (∃ ymd, strptimeYmd dateTok = .ok ymd ∧ TokenOrFutureRaise t2 ymd true now)
  | none =>
    TokenOrFutureRaise (preprocessTom text now).1 (preprocessTom text now).2 false now

theorem timeTokenOf_none_iff (t : List Char) :
    timeTokenOf t = none ↔ (match12h t = none ∧ match24h t = none) := by
  unfold timeTokenOf
  cases h12 : match12h t with
  | some v => simp
  | none =>
    cases h24 : match24h t with
    | some v => simp
    | none => simp

theorem timeTokenOf_error_iff (t : List Char) :
    (∃ e, timeTokenOf t = some (.error e)) ↔
      ((∃ h mi pm, match12h t = some (h, mi, pm) ∧ (24 ≤ adjusted12Hour h pm ∨ 60 ≤ mi))
       ∨ (match12h t = none
           ∧ ∃ h mi, match24h t = some (h, mi) ∧ (24 ≤ h ∨ 60 ≤ mi))) := by
  unfold timeTokenOf
  cases h12 : match12h t with
  | some v =>
    obtain ⟨h, mi, pm⟩ := v
    unfold parse12Hour
    dsimp only
    by_cases hr : 24 ≤ adjusted12Hour h pm
    · rw [if_pos hr]
      constructor
      · intro _; exact Or.inl ⟨h, mi, pm, rfl, Or.inl hr⟩
      · intro _; exact ⟨"hour must be in 0..23", rfl⟩
    · rw [if_neg hr]
      by_cases hm : 60 ≤ mi
      · rw [if_pos hm]
        constructor
        · intro _; exact Or.inl ⟨h, mi, pm, rfl, Or.inr hm⟩
        · intro _; exact ⟨"minute must be in 0..59", rfl⟩
      · rw [if_neg hm]
        constructor
        · rintro ⟨e, he⟩
          injection he with he
          exact Except.noConfusion he
        · rintro (⟨h', mi', pm', hm12, hrange⟩ | ⟨hn, _⟩)
          · injection hm12 with hm12
            obtain ⟨rfl, rfl, rfl⟩ : h = h' ∧ mi = mi' ∧ pm = pm' := by
              simpa [Prod.ext_iff] using hm12
            rcases hrange with hx | hx
            · exact absurd hx hr
            · exact absurd hx hm
          · exact Option.noConfusion hn
  | none =>
    cases h24 : match24h t with
    | none =>
      constructor
      · rintro ⟨e, he⟩; exact Option.noConfusion he
      · rintro (⟨h', mi', pm', hm12, _⟩ | ⟨_, h', mi', hm24, _⟩)
        · exact Option.noConfusion hm12
        · exact Option.noConfusion hm24
    | some v =>
      obtain ⟨h, mi⟩ := v
      unfold parse24Hour
      dsimp only
      by_cases hr : 24 ≤ h
      · rw [if_pos hr]
        constructor
        · intro _; exact Or.inr ⟨rfl, h, mi, rfl, Or.inl hr⟩
        · intro _; exact ⟨"hour must be in 0..23", rfl⟩
      · rw [if_neg hr]
        by_cases hm : 60 ≤ mi
        · rw [if_pos hm]
          constructor
          · intro _; exact Or.inr ⟨rfl, h, mi, rfl, Or.inr hm⟩
          · intro _; exact ⟨"minute must be in 0..59", rfl⟩
        · rw [if_neg hm]
          constructor
          · rintro ⟨e, he⟩
            injection he with he
            exact Except.noConfusion he
          · rintro (⟨h', mi', pm', hm12, _⟩ | ⟨_, h', mi', hm24, hrange⟩)
            · exact Option.noConfusion hm12
            · injection hm24 with hm24
              obtain ⟨rfl, rfl⟩ : h = h' ∧ mi = mi' := by
                simpa [Prod.ext_iff] using hm24
              rcases hrange with hx | hx
              · exact absurd hx hr
              · exact absurd hx hm

theorem finishTime_error_cases (t : List Char) (tDate : Nat × Nat × Nat)
    (dE : Bool) (now : PyDateTime) :
    (∃ e, finishTime t tDate dE now = .error e) ↔
      (timeTokenOf t = none
       ∨ (∃ e, timeTokenOf t = some (.error e))
       ∨ (∃ h mi, timeTokenOf t = some (.ok (h, mi))
           ∧ dtLe (adjustedCombine t tDate dE now h mi) now = true)) := by
  cases htk : timeTokenOf t with
  | none =>
    unfold finishTime
    rw [htk]
    simp
  | some r =>
    cases r with
    | error e =>
      unfold finishTime
      rw [htk]
      simp
    | ok p =>
      obtain ⟨h, mi⟩ := p
      unfold finishTime
      rw [htk]
      dsimp only
      by_cases hf : dtLe (adjustedCombine t tDate dE now h mi) now = true
      · constructor
        · intro _; exact Or.inr (Or.inr ⟨h, mi, rfl, hf⟩)
        · intro _
          refine ⟨"Scheduled time must be in the future", ?_⟩
          simp only [hf, if_true]
      · constructor
        · rintro ⟨e, he⟩
          rw [if_neg hf] at he
          exact Except.noConfusion he
        · rintro (hn | ⟨e, he⟩ | ⟨h', mi', htk', hfut⟩)
          · exact Option.noConfusion hn
          · injection he with he
            exact Except.noConfusion he
          · injection htk' with htk'
            injection htk' with htk'
            obtain ⟨rfl, rfl⟩ : h = h' ∧ mi = mi' := by
              simpa [Prod.ext_iff] using htk'
            exact absurd hfut hf

theorem finishTime_ok_future (t : List Char) (tDate : Nat × Nat × Nat)
    (dE : Bool) (now : PyDateTime) (dt : PyDateTime)
    (hok : finishTime t tDate dE now = .ok dt) : dtLe dt now = false := by
  unfold finishTime at hok
  cases htk : timeTokenOf t with
  | none => rw [htk] at hok; exact Except.noConfusion hok
  | some r =>
    rw [htk] at hok
    cases r with
    | error e => exact Except.noConfusion hok
    | ok p =>
      obtain ⟨h, mi⟩ := p
      dsimp only at hok
      by_cases hf : dtLe (adjustedCombine t tDate dE now h mi) now = true
      · rw [if_pos hf] at hok; exact Except.noConfusion hok
      · rw [if_neg hf] at hok
        injection hok with hok
        subst hok
        cases hb : dtLe (adjustedCombine t tDate dE now h mi) now with
        | false => rfl
        | true => exact absurd hb hf

theorem finishTime_error_iff (t : List Char) (tDate : Nat × Nat × Nat)
    (dE : Bool) (now : PyDateTime) :
    (∃ e, finishTime t tDate dE now = .error e) ↔ TokenOrFutureRaise t tDate dE now := by
  refine (finishTime_error_cases t tDate dE now).trans ?_
  unfold TokenOrFutureRaise
  constructor
  · rintro (hn | herr | hfd)
    · exact Or.inl ((timeTokenOf_none_iff t).mp hn)
    · rcases (timeTokenOf_error_iff t).mp herr with hB | hC
      · exact Or.inr (Or.inl hB)
      · exact Or.inr (Or.inr (Or.inl hC))
    · exact Or.inr (Or.inr (Or.inr hfd))
  · rintro (hA | hB | hC | hD)
    · exact Or.inl ((timeTokenOf_none_iff t).mpr hA)
    · exact Or.inr (Or.inl ((timeTokenOf_error_iff t).mpr (Or.inl hB)))
    · exact Or.inr (Or.inl ((timeTokenOf_error_iff t).mpr (Or.inr hC)))
    · exact Or.inr (Or.inr hD)

/-- C3 corrected: the parser either raises ValueError or returns an
instant; whenever it returns, the instant is strictly greater than `now`;
and it raises exactly when the explicit date (when present) is invalid,
or the time token matches neither pattern, or the matched time values are
out of range (hour ≥ 24 or minute ≥ 60 after the 12-hour adjustment, the
`time.replace` validation), or the combined and possibly day-adjusted
instant is not strictly in the future. -/
theorem claim_C3_raise_characterization (text : String) (now : PyDateTime) :
    (∀ dt, parse_time_input text now = .ok dt → dtLe dt now = false)
    ∧ ((∃ e, parse_time_input text now = .error e) ↔ RaiseCond text now) := by
  cases hd : dateLeadMatch (preprocessTom text now).1 with
  | none =>
    have hp : parse_time_input text now
        = finishTime (preprocessTom text now).1 (preprocessTom text now).2 false now := by
      unfold parse_time_input
      dsimp only
      rw [hd]
    have hRC : RaiseCond text now ↔
        TokenOrFutureRaise (preprocessTom text now).1 (preprocessTom text now).2 false now := by
      unfold RaiseCond
      rw [hd]
    constructor
    · intro dt hok
      rw [hp] at hok
      exact finishTime_ok_future _ _ _ _ _ hok
    · rw [hp, hRC]
      exact finishTime_error_iff _ _ _ _
  | some v =>
    obtain ⟨dateTok, t2⟩ := v
    cases hs : strptimeYmd dateTok with
    | error e =>
      have hp : parse_time_input text now = .error e := by
        unfold parse_time_input
        dsimp only
        rw [hd]
        dsimp only
        rw [hs]
      constructor
      · intro dt hok
        rw [hp] at hok
        exact Except.noConfusion hok
      · constructor
        · intro _
          unfold RaiseCond
          rw [hd]
          exact Or.inl ⟨e, hs⟩
        · intro _
          exact ⟨e, hp⟩
    | ok ymd =>
      have hp : parse_time_input text now = finishTime t2 ymd true now := by
        unfold parse_time_input
        dsimp only
        rw [hd]
        dsimp only
        rw [hs]
      have hRC : RaiseCond text now ↔
          ((∃ e, strptimeYmd dateTok = .error e)
            ∨ (∃ ymd', strptimeYmd dateTok = .ok ymd'
                ∧ TokenOrFutureRaise t2 ymd' true now)) := by
        unfold RaiseCond
        rw [hd]
      constructor
      · intro dt hok
        rw [hp] at hok
        exact finishTime_ok_future _ _ _ _ _ hok
      · rw [hp, hRC]
        constructor
        · intro hfe
          exact Or.inr ⟨ymd, hs, (finishTime_error_iff _ _ _ _).mp hfe⟩
        · rintro (⟨e, he⟩ | ⟨ymd', hy, htf⟩)
          · rw [hs] at he
            exact Except.noConfusion he
          · rw [hs] at hy
            injection hy with hy
            subst hy
            exact (finishTime_error_iff _ _ _ _).mpr htf

/-- C3 counterexample: on input `25:00` (now = 2024-01-15 14:00 IST) the
parser raises (from the `time.replace` range check), yet the claim's
stated raise condition is false there — the 24-hour pattern DOES match the
token, and the combined, possibly day-adjusted, instant (25:00 on either
day, compared lexicographically) is strictly in the future. -/
theorem claim_C3_counterexample :
    (∃ e, parse_time_input "25:00" sampleDT = .error e)
    ∧ ¬ ((match12h (lowerList (stripList ("25:00" : String).data)) = none
          ∧ match24h (lowerList (stripList ("25:00" : String).data)) = none)
        ∨ dtLe (adjustedCombine (lowerList (stripList ("25:00" : String).data))
            (dateOf sampleDT) false sampleDT 25 0) sampleDT = true) := by
  constructor
  · exact ⟨"hour must be in 0..23", rfl⟩
  · intro hc
    rcases hc with ⟨h1, h2⟩ | h3
    · exact absurd h2 (by decide)
    · exact absurd h3 (by decide)

/-- C3 witness: the corrected theorem applied to two concrete inputs —
`8:15 pm` parses to a strictly future instant, and `nonsense` raises
because no time pattern matches. -/
theorem claim_C3_raise_characterization_witness :
    dtLe { year := 2024, month := 1, day := 15, hour := 20, minute := 15,
           second := 0, microsecond := 0, offMinutes := istOff } sampleDT = false
    ∧ (∃ e, parse_time_input "nonsense" sampleDT = .error e) := by
  constructor
  · exact (claim_C3_raise_characterization "8:15 pm" sampleDT).1 _ rfl
  · exact (claim_C3_raise_characterization "nonsense" sampleDT).2.mpr
      (Or.inl ⟨rfl, rfl⟩)

/-! ## Claim C9 — persistence round trip (`save_tasks` / `load_tasks`)

`save_tasks` (mann.py:63-78) writes `asdict(task)` with the two datetimes
replaced by `datetime.isoformat()` strings and dumps the record set as
JSON keyed by task id; `load_tasks` (mann.py:80-94) parses the strings
back with `datetime.fromisoformat`.  The JSON layer round-trips the
remaining fields verbatim (the spec scopes the file format out), so the
file is modelled as the record set itself with the datetimes as their
ISO strings. -/

/-- The ASCII digit character for `n < 10`. -/
def digitChar (n : Nat) : Char := Char.ofNat (48 + n)

/-- Two-digit zero-padded rendering (`%02d`). -/
def digits2 (n : Nat) : List Char := [digitChar (n / 10), digitChar (n % 10)]

/-- Four-digit zero-padded rendering (`%04d`). -/
def digits4 (n : Nat) : List Char := digits2 (n / 100) ++ digits2 (n % 100)

/-- Six-digit zero-padded rendering (`%06d`). -/
def digits6 (n : Nat) : List Char :=
  digits2 (n / 10000) ++ digits2 (n / 100 % 100) ++ digits2 (n % 100)

/-- The `±HH:MM` offset suffix of `datetime.isoformat`. -/
def offsetChars (off : Int) : List Char :=
  (if off < 0 then '-' else '+')
    :: digits2 (off.natAbs / 60) ++ ':' :: digits2 (off.natAbs % 60)

/-- `datetime.isoformat()` for an aware datetime:
`YYYY-MM-DDTHH:MM:SS[.ffffff]±HH:MM`, the fraction omitted when the
microsecond field is zero. -/
def isoformatChars (dt : PyDateTime) : List Char :=
  digits4 dt.year ++ '-' :: digits2 dt.month ++ '-' :: digits2 dt.day
    ++ 'T' :: digits2 dt.hour ++ ':' :: digits2 dt.minute ++ ':' :: digits2 dt.second
    ++ (if dt.microsecond = 0 then [] else '.' :: digits6 dt.microsecond)
    ++ offsetChars dt.offMinutes

/-- `isoformat` on `String`. -/
def isoformat (dt : PyDateTime) : String := String.mk (isoformatChars dt)

/-- One ASCII digit. -/
def readDigit (c : Char) : Option Nat :=
  if isDigitCh c then some (c.toNat - 48) else none

/-- Exactly two digits. -/
def read2 (l : List Char) : Option (Nat × List Char) :=
  match l with
  | a :: b :: r =>
    match readDigit a, readDigit b with
    | some x, some y => some (x * 10 + y, r)
    | _, _ => none
  | _ => none

/-- Exactly four digits. -/
def read4 (l : List Char) : Option (Nat × List Char) :=
  match read2 l with
  | none => none
  | some (x, l1) =>
    match read2 l1 with
    | none => none
    | some (y, r) => some (x * 100 + y, r)

/-- Exactly six digits. -/
def read6 (l : List Char) : Option (Nat × List Char) :=
  match read2 l with
  | none => none
  | some (x, l1) =>
    match read4 l1 with
    | none => none
    | some (y, r) => some (x * 10000 + y, r)

/-- The optional `.ffffff` fraction. -/
def readFrac (l : List Char) : Option (Nat × List Char) :=
  match l with
  | '.' :: r =>
    match read6 r with
    | none => none
    | some (us, r1) => some (us, r1)
  | _ => some (0, l)

/-- Expect one specific character. -/
def expectCh (c : Char) (l : List Char) : Option (List Char) :=
  match l with
  | x :: r => if x = c then some r else none
  | [] => none

/-- The `±HH:MM` offset; the whole input must be consumed. -/
def readOffset (l : List Char) : Option Int :=
  match l with
  | s :: r =>
    if s = '+' || s = '-' then
      match read2 r with
      | none => none
      | some (oh, r1) =>
        match expectCh ':' r1 with
        | none => none
        | some r2 =>
          match read2 r2 with
          | none => none
          | some (om, r3) =>
            if r3.isEmpty then
              some (if s = '-' then -((oh * 60 + om : Nat) : Int) else ((oh * 60 + om : Nat) : Int))
            else none
    else none
  | [] => none

/-- `datetime.fromisoformat` on the aware format `save_tasks` writes
(fixed-width fields, any single separator character at position 10, the
constructor range validation; the naive no-offset form never occurs in
the persisted file). -/
def fromisoformatChars (l : List Char) : Option PyDateTime :=
  match read4 l with
  | none => none
  | some (y, l1) =>
    match expectCh '-' l1 with
    | none => none
    | some l2 =>
      match read2 l2 with
      | none => none
      | some (m, l3) =>
        match expectCh '-' l3 with
        | none => none
        | some l4 =>
          match read2 l4 with
          | none => none
          | some (d, l5) =>
            match l5 with
            | [] => none
            | _ :: l6 =>
              match read2 l6 with
              | none => none
              | some (h, l7) =>
                match expectCh ':' l7 with
                | none => none
                | some l8 =>
                  match read2 l8 with
                  | none => none
                  | some (mi, l9) =>
                    match expectCh ':' l9 with
                    | none => none
                    | some l10 =>
                      match read2 l10 with
                      | none => none
                      | some (s, l11) =>
                        match readFrac l11 with
                        | none => none
                        | some (us, l12) =>
                          match readOffset l12 with
                          | none => none
                          | some off =>
                            if 1 ≤ y ∧ 1 ≤ m ∧ m ≤ 12 ∧ 1 ≤ d ∧ d ≤ daysInMonth y m
                                ∧ h ≤ 23 ∧ mi ≤ 59 ∧ s ≤ 59 ∧ off.natAbs ≤ 1439 then
                              some { year := y, month := m, day := d, hour := h,
                                     minute := mi, second := s, microsecond := us,
                                     offMinutes := off }
                            else none

/-- `fromisoformat` on `String`. -/
def fromisoformat (s : String) : Option PyDateTime := fromisoformatChars s.data

/-- The JSON record `save_tasks` writes for one task: `asdict(task)` with
ISO strings for the two datetimes. -/
structure SerTask where
  user_id : Int
  task_id : String
  webhook_url : String
  notes : String
  scheduled_time : String
  status : String
  created_at : String
  results : Option (List (String × JsonVal))

/-- One task's serialized record (mann.py:67-72). -/
def serializeTask (t : ScheduledTask) : SerTask :=
  { user_id := t.user_id, task_id := t.task_id, webhook_url := t.webhook_url,
    notes := t.notes, scheduled_time := isoformat t.scheduled_time,
    status := t.status, created_at := isoformat t.created_at, results := t.results }

/-- `save_tasks` (mann.py:63-78): the persisted record set, keyed like the
in-memory dict. -/
def save_tasks (tasks : TaskDict) : List (String × SerTask) :=
  tasks.map (fun kv => (kv.1, serializeTask kv.2))

/-- Reconstruction of one task by `load_tasks` (mann.py:87-91): parse the
two ISO strings back and rebuild `ScheduledTask(**task_dict)`. -/
def loadTask (s : SerTask) : Option ScheduledTask :=
  match fromisoformat s.scheduled_time, fromisoformat s.created_at with
  | some st, some ct =>
    some { user_id := s.user_id, task_id := s.task_id, webhook_url := s.webhook_url,
           notes := s.notes, scheduled_time := st, status := s.status,
           created_at := ct, results := s.results }
  | _, _ => none

/-- `load_tasks` (mann.py:80-94) over the persisted record set; `none`
models the decode failure that the except block logs. -/
def load_tasks (file : List (String × SerTask)) : Option TaskDict :=
  file.foldr
    (fun kv acc =>
      match acc, loadTask kv.2 with
      | some rest, some t => some ((kv.1, t) :: rest)
      | _, _ => none)
    (some [])

theorem readDigit_digitChar : ∀ n < 10, readDigit (digitChar n) = some n := by decide

theorem read2_digits2 (n : Nat) (h : n < 100) (r : List Char) :
    read2 (digits2 n ++ r) = some (n, r) := by
  have h1 : n / 10 < 10 := by omega
  have h2 : n % 10 < 10 := by omega
  show (match readDigit (digitChar (n / 10)), readDigit (digitChar (n % 10)) with
      | some x, some y => some (x * 10 + y, r)
      | _, _ => none) = some (n, r)
  rw [readDigit_digitChar _ h1, readDigit_digitChar _ h2]
  dsimp only
  rw [show n / 10 * 10 + n % 10 = n from by omega]

theorem read2_digits2_nil (n : Nat) (h : n < 100) : read2 (digits2 n) = some (n, []) := by
  have := read2_digits2 n h []
  rwa [List.append_nil] at this

theorem read4_digits4 (n : Nat) (h : n < 10000) (r : List Char) :
    read4 (digits4 n ++ r) = some (n, r) := by
  unfold read4
  rw [show digits4 n ++ r = digits2 (n / 100) ++ (digits2 (n % 100) ++ r) from by
    unfold digits4
    rw [List.append_assoc]]
  rw [read2_digits2 _ (by omega)]
  dsimp only
  rw [read2_digits2 _ (by omega)]
  dsimp only
  rw [show n / 100 * 100 + n % 100 = n from by omega]

theorem read6_digits6 (n : Nat) (h : n < 1000000) (r : List Char) :
    read6 (digits6 n ++ r) = some (n, r) := by
  unfold read6
  rw [show digits6 n ++ r = digits2 (n / 10000) ++ (digits4 (n % 10000) ++ r) from by
    unfold digits6 digits4
    rw [show n % 10000 / 100 = n / 100 % 100 from by omega,
      show n % 10000 % 100 = n % 100 from by omega]
    simp [List.append_assoc]]
  rw [read2_digits2 _ (by omega)]
  dsimp only
  rw [read4_digits4 _ (by omega)]
  dsimp only
  rw [show n / 10000 * 10000 + n % 10000 = n from by omega]

theorem expectCh_cons (c : Char) (r : List Char) : expectCh c (c :: r) = some r := by
  unfold expectCh
  dsimp only
  rw [if_pos rfl]

theorem readFrac_offsetChars (off : Int) :
    readFrac (offsetChars off) = some (0, offsetChars off) := by
  unfold offsetChars
  by_cases hneg : off < 0
  · rw [if_pos hneg]; rfl
  · rw [if_neg hneg]; rfl

theorem readFrac_dot (us : Nat) (h : us < 1000000) (r : List Char) :
    readFrac ('.' :: (digits6 us ++ r)) = some (us, r) := by
  show (match read6 (digits6 us ++ r) with
      | none => none
      | some (us, r1) => some (us, r1)) = some (us, r)
  rw [read6_digits6 _ h]

theorem readOffset_offsetChars (off : Int) (h : off.natAbs ≤ 1439) :
    readOffset (offsetChars off) = some off := by
  unfold offsetChars readOffset
  by_cases hneg : off < 0
  · rw [if_pos hneg]
    simp only [List.cons_append]
    rw [if_pos (by decide)]
    rw [read2_digits2 _ (by omega)]
    dsimp only
    rw [expectCh_cons]
    dsimp only
    rw [read2_digits2_nil _ (by omega)]
    dsimp only
    rw [if_pos (show (([] : List Char).isEmpty = true) from rfl), if_pos trivial]
    congr 1
    omega
  · rw [if_neg hneg]
    simp only [List.cons_append]
    rw [if_pos (by decide)]
    rw [read2_digits2 _ (by omega)]
    dsimp only
    rw [expectCh_cons]
    dsimp only
    rw [read2_digits2_nil _ (by omega)]
    dsimp only
    rw [if_pos (show (([] : List Char).isEmpty = true) from rfl), if_neg (by decide)]
    congr 1
    omega

/-- `fromisoformat` inverts `isoformat` on every valid aware datetime. -/
theorem fromiso_isoformat (dt : PyDateTime) (hv : ValidDT dt) :
    fromisoformatChars (isoformatChars dt) = some dt := by
  obtain ⟨y, m, d, h, mi, s, us, off⟩ := dt
  unfold ValidDT at hv
  dsimp only at hv
  obtain ⟨hy1, hy2, hm1, hm2, hd1, hd2, hh, hmi, hs, hu, hoff⟩ := hv
  have h31 := daysInMonth_le31 y m
  unfold isoformatChars fromisoformatChars
  simp only [List.append_assoc, List.cons_append]
  rw [read4_digits4 _ (by omega)]
  dsimp only
  rw [expectCh_cons]
  dsimp only
  rw [read2_digits2 _ (by omega)]
  dsimp only
  rw [expectCh_cons]
  dsimp only
  rw [read2_digits2 _ (by omega)]
  dsimp only
  rw [read2_digits2 _ (by omega)]
  dsimp only
  rw [expectCh_cons]
  dsimp only
  rw [read2_digits2 _ (by omega)]
  dsimp only
  rw [expectCh_cons]
  dsimp only
  rw [read2_digits2 _ (by omega)]
  dsimp only
  by_cases hus : us = 0
  · rw [if_pos hus]
    simp only [List.nil_append]
    rw [readFrac_offsetChars]
    dsimp only
    rw [readOffset_offsetChars _ hoff]
    dsimp only
    rw [if_pos ⟨hy1, hm1, hm2, hd1, hd2, hh, hmi, hs, hoff⟩]
    rw [hus]
  · rw [if_neg hus]
    simp only [List.cons_append]
    rw [readFrac_dot _ (by omega)]
    dsimp only
    rw [readOffset_offsetChars _ hoff]
    dsimp only
    rw [if_pos ⟨hy1, hm1, hm2, hd1, hd2, hh, hmi, hs, hoff⟩]

/-- One serialized task reloads to the original record. -/
theorem loadTask_serializeTask (t : ScheduledTask)
    (h1 : ValidDT t.scheduled_time) (h2 : ValidDT t.created_at) :
    loadTask (serializeTask t) = some t := by
  unfold loadTask serializeTask
  dsimp only
  unfold fromisoformat isoformat
  rw [show (String.mk (isoformatChars t.scheduled_time)).data
      = isoformatChars t.scheduled_time from rfl,
    show (String.mk (isoformatChars t.created_at)).data
      = isoformatChars t.created_at from rfl,
    fromiso_isoformat _ h1, fromiso_isoformat _ h2]

/-- C9: for every store whose task records are serializable (valid
timezone-aware datetimes; `results` is JSON-representable by its type),
saving and then loading the persisted file reproduces the task records
exactly — same task ids in the same order, and for each id the same
user_id, webhook_url, notes, status, result, and the same scheduled and
creation instants. -/
theorem claim_C9_save_load_roundtrip (tasks : TaskDict)
    (h : ∀ kv ∈ tasks, ValidDT kv.2.scheduled_time ∧ ValidDT kv.2.created_at) :
    load_tasks (save_tasks tasks) = some tasks := by
  induction tasks with
  | nil => rfl
  | cons kv rest ih =>
    have hkv := h kv (List.mem_cons_self kv rest)
    have hrest : ∀ kv ∈ rest, ValidDT kv.2.scheduled_time ∧ ValidDT kv.2.created_at :=
      fun x hx => h x (List.mem_cons_of_mem kv hx)
    unfold save_tasks load_tasks
    rw [List.map_cons, List.foldr_cons]
    have ihr : load_tasks (save_tasks rest) = some rest := ih hrest
    unfold save_tasks load_tasks at ihr
    rw [ihr]
    rw [show (kv.1, serializeTask kv.2).2 = serializeTask kv.2 from rfl,
      loadTask_serializeTask kv.2 hkv.1 hkv.2]

/-- C9 witness: the round trip on the concrete two-task store. -/
theorem claim_C9_save_load_roundtrip_witness :
    load_tasks (save_tasks demoStore) = some demoStore := by
  apply claim_C9_save_load_roundtrip
  intro kv hkv
  rcases List.mem_cons.mp hkv with h1 | h2
  · rw [h1]; exact ⟨by decide, by decide⟩
  · rcases List.mem_cons.mp h2 with h3 | h4
    · rw [h3]; exact ⟨by decide, by decide⟩
    · exact absurd h4 (List.not_mem_nil kv)

/-! ## Claim C2 — the task lifecycle

A labelled transition system over the store operations.  Its events are
exactly the code paths that write a task's status: intake creation with a
fresh id (`handle_notes_input`, mann.py:282-293; replacement on an id
collision is a different record, settled by C10), the dispatcher's claim
of a due pending task (`check_and_run_tasks`, mann.py:519-538, which
spawns one worker), the worker's single final status write
(`run_hackrx_task`, mann.py:578-588), and cancellation (`cancel_task`).
The `inflight` list tracks ids claimed by a spawned worker that has not
yet written its final status. -/

/-- System state: the store plus the claims in flight. -/
structure Sys where
  tasks : TaskDict
  inflight : List String

/-- `TaskManager` starts from an empty store (no persisted file). -/
def initSys : Sys := { tasks := [], inflight := [] }

/-- One transition of the program. -/
inductive Step : Sys → Sys → Prop where
  | create (s : Sys) (t : ScheduledTask) :
      t.status = "pending" →
      dictLookup t.task_id s.tasks = none →
      Step s { tasks := add_task s.tasks t, inflight := s.inflight }
  | claim (s : Sys) (id : String) (t : ScheduledTask) (now : PyDateTime) :
      dictLookup id s.tasks = some t →
      t.status = "pending" →
      dtLe t.scheduled_time now = true →
      Step s { tasks := update_task_status s.tasks id "running" none,
               inflight := id :: s.inflight }
  | finish (s : Sys) (id : String) (ok : Bool) (res : List (String × JsonVal)) :
      id ∈ s.inflight →
      Step s { tasks := update_task_status s.tasks id
                 (if ok then "completed" else "failed") (some res),
               inflight := s.inflight.erase id }
  | cancel (s : Sys) (id : String) :
      Step s { tasks := (cancel_task s.tasks id).2, inflight := s.inflight }

/-- The status a task id shows in a state (`none` = no such record). -/
def statusOf (s : Sys) (id : String) : Option String :=
  (dictLookup id s.tasks).map ScheduledTask.status

/-- Reversed traces: head is the latest state, the last entry is the
initial state. -/
inductive TraceR : List Sys → Prop where
  | init : TraceR [initSys]
  | step (s s' : Sys) (rest : List Sys) :
      TraceR (s :: rest) → Step s s' → TraceR (s' :: s :: rest)

/-- Append a value unless it repeats the current last entry. -/
def extendSeq (seq : List (Option String)) (x : Option String) : List (Option String) :=
  if seq.getLast? = some x then seq else seq ++ [x]

/-- The sequence of distinct status values a task id takes along a
reversed trace, oldest first, consecutive repeats collapsed. -/
def statusSeq (tr : List Sys) (id : String) : List (Option String) :=
  tr.foldr (fun s seq => extendSeq seq (statusOf s id)) []

/-- The three admissible lifecycles, each preceded by the not-yet-created
state. -/
def lifecycleChains : List (List (Option String)) :=
  [[none, some "pending", some "running", some "completed"],
   [none, some "pending", some "running", some "failed"],
   [none, some "pending", some "cancelled"]]

/-- Reachability invariant: in-flight ids are distinct and each one's
task is currently 'running'. -/
def Inv (s : Sys) : Prop :=
  s.inflight.Nodup ∧ ∀ id ∈ s.inflight, statusOf s id = some "running"

theorem update_status_lookup_self (tasks : TaskDict) (id status : String)
    (results : Option (List (String × JsonVal))) (t : ScheduledTask)
    (hl : dictLookup id tasks = some t) :
    dictLookup id (update_task_status tasks id status results)
      = some { t with status := status,
                      results := if truthyResults results then results else t.results } := by
  unfold update_task_status
  rw [hl]
  simp only [Option.isSome_some, if_pos]
  rw [dictLookup_modify_self, hl]
  by_cases ht : truthyResults results <;> simp [ht]

theorem update_status_lookup_other (tasks : TaskDict) (id status : String)
    (results : Option (List (String × JsonVal))) (id' : String) (h : id' ≠ id) :
    dictLookup id' (update_task_status tasks id status results) = dictLookup id' tasks := by
  unfold update_task_status
  by_cases hs : (dictLookup id tasks).isSome
  · rw [if_pos hs]
    exact dictLookup_modify_other id id' _ tasks h
  · rw [if_neg hs]

theorem cancel_lookup_other (tasks : TaskDict) (id id' : String) (h : id' ≠ id) :
    dictLookup id' (cancel_task tasks id).2 = dictLookup id' tasks := by
  rcases hl : dictLookup id tasks with _ | t
  · simp [cancel_task, hl]
  · by_cases hp : t.status = "pending"
    · simp only [cancel_task, hl, hp, if_true]
      exact dictLookup_modify_other id id' _ tasks h
    · simp [cancel_task, hl, hp]

theorem cancel_true_pending (tasks : TaskDict) (id : String)
    (hc : (cancel_task tasks id).1 = true) :
    ∃ t, dictLookup id tasks = some t ∧ t.status = "pending" := by
  rcases hl : dictLookup id tasks with _ | t
  · simp [cancel_task, hl] at hc
  · by_cases hp : t.status = "pending"
    · exact ⟨t, rfl, hp⟩
    · simp [cancel_task, hl, hp] at hc

/-- Every transition leaves a task's status unchanged or moves it along
one of the five lifecycle edges. -/
theorem step_status (s s' : Sys) (h : Step s s') (hinv : Inv s) (id : String) :
    statusOf s' id = statusOf s id
    ∨ (statusOf s id = none ∧ statusOf s' id = some "pending")
    ∨ (statusOf s id = some "pending" ∧ statusOf s' id = some "running")
    ∨ (statusOf s id = some "running" ∧ statusOf s' id = some "completed")
    ∨ (statusOf s id = some "running" ∧ statusOf s' id = some "failed")
    ∨ (statusOf s id = some "pending" ∧ statusOf s' id = some "cancelled") := by
  cases h with
  | create t hpend hfresh =>
    by_cases hid : id = t.task_id
    · subst hid
      refine Or.inr (Or.inl ⟨?_, ?_⟩)
      · unfold statusOf
        rw [hfresh]
        rfl
      · unfold statusOf add_task
        rw [dictLookup_insert_self]
        rw [Option.map_some']
        rw [hpend]
    · refine Or.inl ?_
      unfold statusOf add_task
      rw [dictLookup_insert_other _ _ _ _ hid]
  | claim id₀ t now hl hpend hdue =>
    by_cases hid : id = id₀
    · subst hid
      refine Or.inr (Or.inr (Or.inl ⟨?_, ?_⟩))
      · unfold statusOf
        rw [hl, Option.map_some', hpend]
      · unfold statusOf
        rw [update_status_lookup_self s.tasks id "running" none t hl]
        rfl
    · refine Or.inl ?_
      unfold statusOf
      rw [update_status_lookup_other _ _ _ _ _ hid]
  | finish id₀ ok res hmem =>
    by_cases hid : id = id₀
    · subst hid
      have hrun : statusOf s id = some "running" := hinv.2 id hmem
      unfold statusOf at hrun
      rcases hl : dictLookup id s.tasks with _ | t
      · rw [hl] at hrun
        exact Option.noConfusion hrun
      · rw [hl, Option.map_some'] at hrun
        injection hrun with hrun
        have hnew : statusOf
            ⟨update_task_status s.tasks id (if ok then "completed" else "failed") (some res),
              s.inflight.erase id⟩ id
            = some (if ok then "completed" else "failed") := by
          unfold statusOf
          rw [update_status_lookup_self s.tasks id _ (some res) t hl]
          rfl
        cases ok with
        | true =>
          refine Or.inr (Or.inr (Or.inr (Or.inl ⟨?_, ?_⟩)))
          · unfold statusOf
            rw [hl, Option.map_some', hrun]
          · rw [hnew]
            rfl
        | false =>
          refine Or.inr (Or.inr (Or.inr (Or.inr (Or.inl ⟨?_, ?_⟩))))
          · unfold statusOf
            rw [hl, Option.map_some', hrun]
          · rw [hnew]
            rfl
    · refine Or.inl ?_
      unfold statusOf
      rw [update_status_lookup_other _ _ _ _ _ hid]
  | cancel id₀ =>
    by_cases hid : id = id₀
    · subst hid
      rcases hl : dictLookup id s.tasks with _ | t
      · refine Or.inl ?_
        unfold statusOf
        rw [show (cancel_task s.tasks id).2 = s.tasks from by simp [cancel_task, hl]]
      · by_cases hp : t.status = "pending"
        · refine Or.inr (Or.inr (Or.inr (Or.inr (Or.inr ⟨?_, ?_⟩))))
          · unfold statusOf
            rw [hl, Option.map_some', hp]
          · unfold statusOf
            rw [show (cancel_task s.tasks id).2
                = dictModify id (fun t => { t with status := "cancelled" }) s.tasks
              from by simp [cancel_task, hl, hp]]
            rw [dictLookup_modify_self, hl]
            rfl
        · refine Or.inl ?_
          unfold statusOf
          rw [show (cancel_task s.tasks id).2 = s.tasks from by simp [cancel_task, hl, hp]]
    · refine Or.inl ?_
      unfold statusOf
      rw [cancel_lookup_other _ _ _ hid]

theorem step_inv {s s' : Sys} (h : Step s s') (hinv : Inv s) : Inv s' := by
  obtain ⟨hnd, hrun⟩ := hinv
  cases h with
  | create t hpend hfresh =>
    refine ⟨hnd, ?_⟩
    intro id hid
    have hr := hrun id hid
    unfold statusOf at hr ⊢
    have hne : id ≠ t.task_id := by
      intro h
      subst h
      rw [hfresh] at hr
      exact Option.noConfusion hr
    unfold add_task
    rw [dictLookup_insert_other _ _ _ _ hne]
    exact hr
  | claim id₀ t now hl hpend hdue =>
    have hnot : id₀ ∉ s.inflight := by
      intro hmem
      have hr := hrun id₀ hmem
      unfold statusOf at hr
      rw [hl, Option.map_some', hpend] at hr
      exact absurd (Option.some.inj hr) (by decide)
    refine ⟨List.nodup_cons.mpr ⟨hnot, hnd⟩, ?_⟩
    intro id hid
    rcases List.mem_cons.mp hid with rfl | hid
    · unfold statusOf
      rw [update_status_lookup_self s.tasks id "running" none t hl]
      rfl
    · have hne : id ≠ id₀ := by
        intro h
        exact hnot (h ▸ hid)
      unfold statusOf
      rw [update_status_lookup_other _ _ _ _ _ hne]
      exact hrun id hid
  | finish id₀ ok res hmem =>
    refine ⟨hnd.erase id₀, ?_⟩
    intro id hid
    have hid' : id ∈ s.inflight := List.mem_of_mem_erase hid
    have hne : id ≠ id₀ := ((List.Nodup.mem_erase_iff hnd).mp hid).1
    unfold statusOf
    rw [update_status_lookup_other _ _ _ _ _ hne]
    exact hrun id hid'
  | cancel id₀ =>
    refine ⟨hnd, ?_⟩
    intro id hid
    have hr := hrun id hid
    by_cases hne : id = id₀
    · subst hne
      unfold statusOf at hr ⊢
      rcases hl : dictLookup id s.tasks with _ | t
      · rw [hl] at hr
        exact Option.noConfusion hr
      · rw [hl, Option.map_some'] at hr
        have hp : ¬ t.status = "pending" := by
          intro hp
          rw [hp] at hr
          exact absurd (Option.some.inj hr) (by decide)
        rw [show (cancel_task s.tasks id).2 = s.tasks from by simp [cancel_task, hl, hp]]
        rw [hl, Option.map_some']
        exact hr
    · unfold statusOf at hr ⊢
      rw [cancel_lookup_other _ _ _ hne]
      exact hr

lemma prefix_enum4 {α : Type} {s : List α} {a b c d : α} (h : s <+: [a, b, c, d]) :
    s = [] ∨ s = [a] ∨ s = [a, b] ∨ s = [a, b, c] ∨ s = [a, b, c, d] := by
  obtain ⟨t, ht⟩ := h
  rcases s with _ | ⟨x1, _ | ⟨x2, _ | ⟨x3, _ | ⟨x4, rest⟩⟩⟩⟩ <;> simp_all

lemma prefix_enum3 {α : Type} {s : List α} {a b c : α} (h : s <+: [a, b, c]) :
    s = [] ∨ s = [a] ∨ s = [a, b] ∨ s = [a, b, c] := by
  obtain ⟨t, ht⟩ := h
  rcases s with _ | ⟨x1, _ | ⟨x2, _ | ⟨x3, rest⟩⟩⟩ <;> simp_all

lemma chain_extend {seq : List (Option String)} {x x' : Option String}
    (hc : ∃ c ∈ lifecycleChains, seq <+: c)
    (hlast : seq.getLast? = some x)
    (hedge : (x = none ∧ x' = some "pending")
      ∨ (x = some "pending" ∧ x' = some "running")
      ∨ (x = some "running" ∧ x' = some "completed")
      ∨ (x = some "running" ∧ x' = some "failed")
      ∨ (x = some "pending" ∧ x' = some "cancelled")) :
    ∃ c ∈ lifecycleChains, seq ++ [x'] <+: c := by
  obtain ⟨c, hcmem, hpre⟩ := hc
  simp only [lifecycleChains, List.mem_cons, List.not_mem_nil, or_false] at hcmem
  rcases hcmem with rfl | rfl | rfl
  · rcases prefix_enum4 hpre with rfl | rfl | rfl | rfl | rfl <;>
      rcases hedge with ⟨rfl, rfl⟩ | ⟨rfl, rfl⟩ | ⟨rfl, rfl⟩ | ⟨rfl, rfl⟩ | ⟨rfl, rfl⟩ <;>
      first
        | exact absurd hlast (by decide)
        | decide
  · rcases prefix_enum4 hpre with rfl | rfl | rfl | rfl | rfl <;>
      rcases hedge with ⟨rfl, rfl⟩ | ⟨rfl, rfl⟩ | ⟨rfl, rfl⟩ | ⟨rfl, rfl⟩ | ⟨rfl, rfl⟩ <;>
      first
        | exact absurd hlast (by decide)
        | decide
  · rcases prefix_enum3 hpre with rfl | rfl | rfl | rfl <;>
      rcases hedge with ⟨rfl, rfl⟩ | ⟨rfl, rfl⟩ | ⟨rfl, rfl⟩ | ⟨rfl, rfl⟩ | ⟨rfl, rfl⟩ <;>
      first
        | exact absurd hlast (by decide)
        | decide

lemma getLast_append_single {α : Type} (l : List α) (a : α) :
    (l ++ [a]).getLast? = some a := by
  induction l with
  | nil => rfl
  | cons x xs ih =>
    rw [List.cons_append, List.getLast?_cons, ih]
    rfl

theorem traceR_props {tr : List Sys} (htr : TraceR tr) :
    ∃ s rest, tr = s :: rest ∧ Inv s ∧
      ∀ id, (statusSeq tr id).getLast? = some (statusOf s id) ∧
        ∃ c ∈ lifecycleChains, statusSeq tr id <+: c := by
  induction htr with
  | init =>
    refine ⟨initSys, [], rfl, ⟨List.nodup_nil, by intro id h; exact absurd h (List.not_mem_nil id)⟩, ?_⟩
    intro id
    refine ⟨rfl, [none, some "pending", some "running", some "completed"], by decide, ?_⟩
    exact ⟨[some "pending", some "running", some "completed"], rfl⟩
  | step s s' rest htr' hstep ih =>
    obtain ⟨s₀, rest₀, heq, hinv, hprops⟩ := ih
    injection heq with h1 h2
    subst h1
    subst h2
    refine ⟨s', s :: rest, rfl, step_inv hstep hinv, ?_⟩
    intro id
    obtain ⟨hlast, hchain⟩ := hprops id
    have hseq : statusSeq (s' :: s :: rest) id
        = extendSeq (statusSeq (s :: rest) id) (statusOf s' id) := rfl
    by_cases hsame : (statusSeq (s :: rest) id).getLast? = some (statusOf s' id)
    · have hkeep : statusSeq (s' :: s :: rest) id = statusSeq (s :: rest) id := by
        rw [hseq]
        unfold extendSeq
        rw [if_pos hsame]
      rw [hkeep]
      exact ⟨hsame, hchain⟩
    · have hext : statusSeq (s' :: s :: rest) id
          = statusSeq (s :: rest) id ++ [statusOf s' id] := by
        rw [hseq]
        unfold extendSeq
        rw [if_neg hsame]
      rw [hext]
      refine ⟨getLast_append_single _ _, ?_⟩
      rcases step_status s s' hstep hinv id with heq | hedge
      · exact absurd (by rw [heq]; exact hlast) hsame
      · exact chain_extend hchain hlast hedge

/-- C2: along every execution of the program's four status-writing
operations (creation as 'pending', the dispatcher's claim of a due
pending task turning it 'running', the spawned worker's single final
write of 'completed' or 'failed', and cancellation), the sequence of
distinct status values any task id takes is a prefix of one of
(absent, pending, running, completed), (absent, pending, running,
failed), (absent, pending, cancelled); moreover no single operation
moves a task out of a terminal status, and `cancel_task` reports success
only for a task that was 'pending' at call time. -/
theorem claim_C2_lifecycle :
    (∀ tr, TraceR tr → ∀ id, ∃ c ∈ lifecycleChains, statusSeq tr id <+: c)
    ∧ (∀ s s', Step s s' → Inv s → ∀ id st, statusOf s id = some st →
        (st = "completed" ∨ st = "failed" ∨ st = "cancelled") →
        statusOf s' id = some st)
    ∧ (∀ tasks id, (cancel_task tasks id).1 = true →
        ∃ t, dictLookup id tasks = some t ∧ t.status = "pending") := by
  refine ⟨?_, ?_, ?_⟩
  · intro tr htr id
    obtain ⟨s, rest, heq, hinv, hprops⟩ := traceR_props htr
    exact (hprops id).2
  · intro s s' hstep hinv id st hst hterm
    rcases step_status s s' hstep hinv id with heq | hedge
    · rw [heq, hst]
    · exfalso
      rcases hedge with ⟨h1, _⟩ | ⟨h1, _⟩ | ⟨h1, _⟩ | ⟨h1, _⟩ | ⟨h1, _⟩ <;>
        rw [hst] at h1 <;>
        rcases hterm with rfl | rfl | rfl <;>
        first
          | exact Option.noConfusion h1
          | exact absurd (Option.some.inj h1) (by decide)
  · intro tasks id hc
    exact cancel_true_pending tasks id hc

/-- Witness for C2 at a concrete one-step trace: creating `sampleTask`
from the empty store yields a status sequence that is a prefix of an
admissible lifecycle, a finish step preserves a concrete terminal status,
and cancel success on `demoStore` key 'a' implies it was pending. -/
theorem claim_C2_lifecycle_witness :
    (∃ c ∈ lifecycleChains,
      statusSeq [{ tasks := add_task initSys.tasks (sampleTask "task_7_1" "pending"),
                   inflight := initSys.inflight }, initSys] "task_7_1" <+: c)
    ∧ statusOf { tasks := (cancel_task demoStore "b").2, inflight := [] } "b"
        = some "completed"
    ∧ (∃ t, dictLookup "a" demoStore = some t ∧ t.status = "pending") := by
  refine ⟨?_, ?_, ?_⟩
  · exact claim_C2_lifecycle.1 _
      (TraceR.step initSys _ [] TraceR.init
        (Step.create initSys (sampleTask "task_7_1" "pending") rfl rfl)) "task_7_1"
  · exact claim_C2_lifecycle.2.1 { tasks := demoStore, inflight := [] } _
      (Step.cancel _ "b") ⟨List.nodup_nil, by intro id h; exact absurd h (List.not_mem_nil id)⟩
      "b" "completed" (by decide) (Or.inl rfl)
  · exact claim_C2_lifecycle.2.2 demoStore "a" (by decide)

end HackRx
